import Mathlib

/-!
Verification of the deposit-settlement and balance-reconciliation subsystem
of the blackgem backend (files `app/web3_service.py`, `app/routers/web3_deposits.py`,
`app/models.py`), shallowly embedded in Lean.

Modelling conventions:
* monetary amounts (Python `float` in the source) are modelled as exact
  rationals `Rat`;
* timestamps (`datetime`) are modelled as integers (seconds);
* the Chain Balance Oracle (the tronpy / web3 clients) is a parameter
  `oracle : String → String → Option Rat` mapping `(network, address)` to the
  on-chain USDT balance, `none` being a failed query (the source catches the
  exception and returns `0.0`, see `get_usdt_balance`);
* the database session is an explicit `LedgerState`; SQLAlchemy row mutations
  become functional updates keyed by the row id;
* status and network values are kept as the source's string literals.
-/

namespace BlackGem

/-- Row of `models.Web3DepositAddress`. -/
structure Web3DepositAddress where
  id : Nat
  user_id : Nat
  address : String
  network : String
  amount : Rat
  status : String
  expires_at : Int
  created_at : Int
  completed_at : Option Int
  deriving DecidableEq, Repr

/-- Row of `models.Transaction` (the fields the web3 subsystem touches). -/
structure Transaction where
  id : Nat
  user_id : Nat
  type : String
  amount : Rat
  currency : String
  status : String
  transaction_hash : Option String
  wallet_address : Option String
  provider : Option String
  description : Option String
  notes : Option String
  network : Option String
  deposit_address_id : Option Nat
  deriving DecidableEq, Repr

/-- Row of `models.User` (the fields the web3 subsystem touches). -/
structure User where
  id : Nat
  balance : Rat
  deriving DecidableEq, Repr

/-- The relational state owned by the Ledger Store: the three relations of
spec section 3 plus fresh-id counters standing for the autoincrement keys. -/
structure LedgerState where
  users : List User
  transactions : List Transaction
  deposit_addresses : List Web3DepositAddress
  next_tx_id : Nat
  next_addr_id : Nat
  deriving DecidableEq, Repr

/-- Python `str.upper()` (ASCII), defined over the character list so that it
computes by kernel reduction. -/
def strUpper (s : String) : String := String.mk (s.data.map Char.toUpper)

/-- Python `str.lower()` (ASCII), defined over the character list so that it
computes by kernel reduction. -/
def strLower (s : String) : String := String.mk (s.data.map Char.toLower)

/-- Default platform custodial wallet for TRC20 (`Web3Service.__init__`). -/
def platform_trc20_wallet : String := "TYourPlatformWalletAddress"

/-- Default platform custodial wallet for BEP20 (`Web3Service.__init__`). -/
def platform_bep20_wallet : String := "0xYourPlatformWalletAddress"

/-- USDT contract address on Tron mainnet (`Web3Service.usdt_addresses`). -/
def usdt_trc20_address : String := "TR7NHqjeKQxGTCi8q8ZY4pL8otSzgjLj6t"

/-- USDT contract address on BSC mainnet (`Web3Service.usdt_addresses`). -/
def usdt_bep20_address : String := "0x55d398326f99059fF775485246999027B3197955"

/-- `Web3Service.get_usdt_balance_trc20` / `get_usdt_balance_bep20`: both
wrap the Oracle query in a `try` that catches every exception and returns
`0.0`, so a failed query is observed by callers as a balance of `0`. -/
def get_usdt_balance (oracle : String → String → Option Rat)
    (network address : String) : Rat :=
  match oracle network address with
  | some b => b
  | none => 0

/-- `Web3Service.convert_usdt_to_usd`: 1:1 peg. -/
def convert_usdt_to_usd (usdt_amount : Rat) : Rat := usdt_amount

/-- `Web3Service.convert_usd_to_usdt`: 1:1 peg. -/
def convert_usd_to_usdt (usd_amount : Rat) : Rat := usd_amount

/-- Per-network configuration returned by `Web3Service.get_network_info`. -/
structure NetworkInfo where
  name : String
  currency : String
  decimals : Nat
  min_deposit : Rat
  max_deposit : Rat
  min_withdrawal : Rat
  max_withdrawal : Rat
  withdrawal_fee : Rat
  deriving DecidableEq, Repr

/-- `Web3Service.get_network_info`: the source returns a hard-coded dict per
network and `{}` (here `none`) for an unrecognised network. -/
def get_network_info (network : String) : Option NetworkInfo :=
  if strUpper network = "TRC20" then
    some { name := "Tron Network", currency := "USDT", decimals := 6,
           min_deposit := 10, max_deposit := 100000,
           min_withdrawal := 10, max_withdrawal := 100000,
           withdrawal_fee := 1 }
  else if strUpper network = "BEP20" then
    some { name := "Binance Smart Chain", currency := "USDT", decimals := 18,
           min_deposit := 10, max_deposit := 100000,
           min_withdrawal := 10, max_withdrawal := 100000,
           withdrawal_fee := 1/2 }
  else
    none

/-- One record's worth of `Web3Service.expire_deposit_addresses`: a pending
record past its deadline becomes `"expired"`, every other record is left
untouched. -/
def expire_sweep_one (now : Int) (a : Web3DepositAddress) : Web3DepositAddress :=
  if a.status = "pending" ∧ a.expires_at < now then
    { a with status := "expired" }
  else
    a

/-- `Web3Service.expire_deposit_addresses` applied to the whole store. -/
def expire_deposit_addresses (now : Int) (st : LedgerState) : LedgerState :=
  { st with deposit_addresses := st.deposit_addresses.map (expire_sweep_one now) }

/-- The ledger entry inserted by `Web3Service.monitor_deposits` on a balance
match: note that `amount` is the address's *expected* amount. -/
def deposit_transaction (tx_id : Nat) (a : Web3DepositAddress) : Transaction :=
  { id := tx_id, user_id := a.user_id, type := "deposit", amount := a.amount,
    currency := "USDT", status := "completed", transaction_hash := none,
    wallet_address := none, provider := some a.network,
    description := some ("USDT deposit on " ++ a.network ++ " network"),
    notes := some "Auto-verified from deposit address",
    network := some a.network, deposit_address_id := some a.id }

/-- `user.balance += amt` for the user row with the given id. -/
def credit_user (uid : Nat) (amt : Rat) (users : List User) : List User :=
  users.map (fun u => if u.id = uid then { u with balance := u.balance + amt } else u)

/-- `current_user.balance -= amt` for the user row with the given id. -/
def debit_user (uid : Nat) (amt : Rat) (users : List User) : List User :=
  users.map (fun u => if u.id = uid then { u with balance := u.balance - amt } else u)

/-- The guard of the settlement branch in `Web3Service.monitor_deposits`:
the network dispatch (`TRC20`/`BEP20`, anything else is `continue`) followed
by `balance >= deposit_address.amount`. It depends only on the Oracle and on
the polled record, not on the rest of the store. -/
def settle_guard (oracle : String → String → Option Rat)
    (a : Web3DepositAddress) : Prop :=
  (a.network = "TRC20" ∨ a.network = "BEP20") ∧
    a.amount ≤ get_usdt_balance oracle a.network a.address

instance (oracle : String → String → Option Rat) (a : Web3DepositAddress) :
    Decidable (settle_guard oracle a) := by
  unfold settle_guard
  infer_instance

/-- The three-effect settlement of `Web3Service.monitor_deposits` lines
524-552: mark the address completed, insert the completed deposit
transaction, credit the owning user with the converted *expected* amount. -/
def apply_settlement (now : Int) (st : LedgerState) (a : Web3DepositAddress) :
    LedgerState :=
  { users := credit_user a.user_id (convert_usdt_to_usd a.amount) st.users,
    transactions := st.transactions ++ [deposit_transaction st.next_tx_id a],
    deposit_addresses := st.deposit_addresses.map (fun x =>
      if x.id = a.id then { x with status := "completed", completed_at := some now }
      else x),
    next_tx_id := st.next_tx_id + 1,
    next_addr_id := st.next_addr_id }

/-- The body of the per-address loop in `Web3Service.monitor_deposits`. -/
def settle_one (oracle : String → String → Option Rat) (now : Int)
    (st : LedgerState) (a : Web3DepositAddress) : LedgerState :=
  if settle_guard oracle a then apply_settlement now st a else st

/-- The pending, non-expired addresses polled by one engine tick
(`monitor_deposits` lines 508-511). -/
def pending_live (now : Int) (st : LedgerState) : List Web3DepositAddress :=
  st.deposit_addresses.filter (fun a => decide (a.status = "pending" ∧ now < a.expires_at))

/-- One iteration of the `while True` loop of `Web3Service.monitor_deposits`
(the engine tick): sweep expired addresses, then poll and settle each
pending, non-expired address in turn. -/
def monitor_deposits_tick (oracle : String → String → Option Rat) (now : Int)
    (st : LedgerState) : LedgerState :=
  let st1 := expire_deposit_addresses now st
  (pending_live now st1).foldl (settle_one oracle now) st1

/-- The failure taxonomy of `Web3Service.check_withdrawal_eligibility` and of
the withdrawal router's network validation (the source returns the reasons as
formatted strings; the numeric payloads here carry the same information). -/
inductive WithdrawalError where
  | invalidNetwork
  | belowMinimum (min_w : Rat)
  | aboveMaximum (max_w : Rat)
  | insufficientUserBalance (user_balance amount : Rat)
  | insufficientPlatformBalance (platform_balance amount : Rat)
  deriving DecidableEq, Repr

/-- `Web3Service.check_withdrawal_eligibility`: the checks run in the
source's order — network, minimum, maximum, user balance, platform balance —
and the first failure short-circuits. On success the platform balance is
returned (the source puts it in the result dict). -/
def check_withdrawal_eligibility (oracle : String → String → Option Rat)
    (network : String) (amount user_balance : Rat) : Except WithdrawalError Rat :=
  match get_network_info network with
  | none => .error .invalidNetwork
  | some ni =>
    if amount < ni.min_withdrawal then .error (.belowMinimum ni.min_withdrawal)
    else if ni.max_withdrawal < amount then .error (.aboveMaximum ni.max_withdrawal)
    else if user_balance < amount then .error (.insufficientUserBalance user_balance amount)
    else
      let platform_balance :=
        if strUpper network = "TRC20" then
          get_usdt_balance oracle "TRC20" platform_trc20_wallet
        else if strUpper network = "BEP20" then
          get_usdt_balance oracle "BEP20" platform_bep20_wallet
        else 0
      if platform_balance < amount then
        .error (.insufficientPlatformBalance platform_balance amount)
      else .ok platform_balance

/-- Balance of the router's `current_user` row. -/
def user_balance_of (st : LedgerState) (uid : Nat) : Rat :=
  ((st.users.find? (fun u => u.id == uid)).map (fun u => u.balance)).getD 0

/-- The pending ledger entry inserted by `create_web3_withdrawal`: the full
requested amount is stored in `amount`; the fee and net amount appear only in
the free-text `notes`. -/
def withdrawal_transaction (tx_id uid : Nat) (network : String)
    (amount fee : Rat) (wallet : String) : Transaction :=
  { id := tx_id, user_id := uid, type := "withdrawal", amount := amount,
    currency := "USDT", status := "pending", transaction_hash := none,
    wallet_address := some wallet, provider := some network,
    description := some ("USDT withdrawal on " ++ network ++ " network"),
    notes := some ("Withdrawal fee: " ++ toString fee ++ " USDT, Net amount: "
      ++ toString (amount - fee) ++ " USDT"),
    network := none, deposit_address_id := none }

/-- Router `create_web3_withdrawal`: validate the network literally, check
eligibility against the current balance, then insert a *pending* transaction.
The source performs no balance mutation here. On error the handler raises
before any write, so the state is unchanged. Returns the new state and the
new transaction id. -/
def create_web3_withdrawal (oracle : String → String → Option Rat)
    (network : String) (amount : Rat) (wallet : String) (uid : Nat)
    (st : LedgerState) : Except WithdrawalError (LedgerState × Nat) :=
  if network = "TRC20" ∨ network = "BEP20" then
    match check_withdrawal_eligibility oracle network amount (user_balance_of st uid) with
    | .error e => .error e
    | .ok _ =>
      let fee := ((get_network_info network).map (fun ni => ni.withdrawal_fee)).getD 1
      let t := withdrawal_transaction st.next_tx_id uid network amount fee wallet
      .ok ({ st with transactions := st.transactions ++ [t]
                     next_tx_id := st.next_tx_id + 1 }, st.next_tx_id)
  else .error .invalidNetwork

/-- State transformer of `create_web3_withdrawal` (error ⇒ no write). -/
def create_web3_withdrawal_state (oracle : String → String → Option Rat)
    (network : String) (amount : Rat) (wallet : String) (uid : Nat)
    (st : LedgerState) : LedgerState :=
  match create_web3_withdrawal oracle network amount wallet uid st with
  | .ok (st2, _) => st2
  | .error _ => st

/-- Outcome of the external broadcaster (`send_usdt_trc20` / `send_usdt_bep20`). -/
inductive SendResult where
  | success (tx_hash : String)
  | failure (err : String)
  deriving DecidableEq, Repr

/-- One broadcast call issued by `process_web3_withdrawal` (network,
destination, amount actually passed to `send_usdt_*`). -/
structure SendCall where
  network : String
  to_address : String
  amount : Rat
  deriving DecidableEq, Repr

/-- Failure taxonomy of router `process_web3_withdrawal`. -/
inductive ProcessError where
  | notFound
  | notEligible (e : WithdrawalError)
  | invalidStoredNetwork
  | sendFailed (err : String)
  deriving DecidableEq, Repr

/-- Apply `f` to the transaction row with the given id
(SQLAlchemy mutation of a fetched row). -/
def update_tx (st : LedgerState) (txid : Nat) (f : Transaction → Transaction) :
    LedgerState :=
  { st with transactions := st.transactions.map (fun t => if t.id = txid then f t else t) }

/-- Router `process_web3_withdrawal`: find the caller's pending withdrawal,
re-check eligibility (marking the row failed on refusal), broadcast via the
Oracle, then either mark completed *and debit the full amount* or mark
failed. The returned list records the broadcast calls actually issued; the
`Except` mirrors the HTTP outcome (new balance on success). -/
def process_web3_withdrawal (oracle : String → String → Option Rat)
    (send : SendCall → SendResult) (withdrawal_id uid : Nat)
    (st : LedgerState) : LedgerState × List SendCall × Except ProcessError Rat :=
  match st.transactions.find? (fun t =>
      t.id == withdrawal_id && t.user_id == uid &&
      t.type == "withdrawal" && t.status == "pending") with
  | none => (st, [], .error .notFound)
  | some w =>
    match check_withdrawal_eligibility oracle (w.provider.getD "") w.amount
        (user_balance_of st uid) with
    | .error e =>
      (update_tx st w.id (fun t =>
        { t with status := "failed", notes := some "Processing failed" }),
       [], .error (.notEligible e))
    | .ok _ =>
      if w.provider = some "TRC20" ∨ w.provider = some "BEP20" then
        let call : SendCall :=
          { network := w.provider.getD "", to_address := w.wallet_address.getD "",
            amount := w.amount }
        match send call with
        | .success h =>
          let st1 := update_tx st w.id (fun t =>
            { t with status := "completed"
                     transaction_hash := some h
                     notes := some ("Withdrawal completed on " ++ w.provider.getD "") })
          let st2 := { st1 with users := debit_user uid w.amount st1.users }
          (st2, [call], .ok (user_balance_of st2 uid))
        | .failure err =>
          (update_tx st w.id (fun t =>
            { t with status := "failed", notes := some ("Withdrawal failed: " ++ err) }),
           [call], .error (.sendFailed err))
      else
        (update_tx st w.id (fun t =>
          { t with status := "failed", notes := some "Processing error" }),
         [], .error .invalidStoredNetwork)

/-- State transformer of `process_web3_withdrawal`. -/
def process_web3_withdrawal_state (oracle : String → String → Option Rat)
    (send : SendCall → SendResult) (withdrawal_id uid : Nat)
    (st : LedgerState) : LedgerState :=
  (process_web3_withdrawal oracle send withdrawal_id uid st).1

/-- Failure taxonomy of `verify_transaction_trc20` / `verify_transaction_bep20`
(the source returns the reasons as strings; `amountMismatch` carries the
expected and observed amounts the source formats into its message). -/
inductive VerifyError where
  | transactionNotFound
  | transactionFailed
  | notSmartContract
  | notUsdtTransaction
  | amountMismatch (expected observed : Rat)
  deriving DecidableEq, Repr

/-- The fields of a Tron transaction that `verify_transaction_trc20` reads:
`contractRet`, the contract type, the call's `to_address`, the sender, and
the transfer amount already decoded from the call data and divided by 10^6. -/
structure TronTxInfo where
  contractRet : String
  contract_type : String
  to_address : String
  owner_address : String
  transfer_amount : Rat
  deriving DecidableEq, Repr

/-- `Web3Service.verify_transaction_trc20`: the chain of checks in source
order; the amount check accepts exactly when `|observed − expected| ≤ 0.01`. -/
def verify_transaction_trc20 (info : Option TronTxInfo) (expected_amount : Rat) :
    Except VerifyError Rat :=
  match info with
  | none => .error .transactionNotFound
  | some i =>
    if i.contractRet ≠ "SUCCESS" then .error .transactionFailed
    else if i.contract_type ≠ "TriggerSmartContract" then .error .notSmartContract
    else if i.to_address ≠ usdt_trc20_address then .error .notUsdtTransaction
    else if 1/100 < |i.transfer_amount - expected_amount| then
      .error (.amountMismatch expected_amount i.transfer_amount)
    else .ok i.transfer_amount

/-- The fields of a BSC transaction that `verify_transaction_bep20` reads:
the receipt status, the call's `to` address, the sender, and the transfer
amount decoded from the input and divided by 10^18. -/
structure BscTxInfo where
  receipt_status : Nat
  to_address : String
  from_address : String
  transfer_amount : Rat
  deriving DecidableEq, Repr

/-- `Web3Service.verify_transaction_bep20`: receipt check, case-insensitive
contract-address check, then the same `|observed − expected| ≤ 0.01` amount
check. -/
def verify_transaction_bep20 (info : Option BscTxInfo) (expected_amount : Rat) :
    Except VerifyError Rat :=
  match info with
  | none => .error .transactionFailed
  | some i =>
    if i.receipt_status ≠ 1 then .error .transactionFailed
    else if strLower i.to_address ≠ strLower usdt_bep20_address then
      .error .notUsdtTransaction
    else if 1/100 < |i.transfer_amount - expected_amount| then
      .error (.amountMismatch expected_amount i.transfer_amount)
    else .ok i.transfer_amount

/-- Outcome of router `verify_web3_deposit`. -/
inductive VerifyDepositOutcome where
  | noPendingDeposit
  | invalidNetwork
  | notVerified (e : VerifyError)
  | verified (usdt_amount usd_amount new_balance : Rat)
  deriving DecidableEq, Repr

/-- Router `verify_web3_deposit`: find the caller's pending deposit entry
matching the submitted network and amount, verify the submitted hash on
chain, and on success mark the entry completed and credit the user with the
converted *observed* amount (`verification_result["amount"]`). -/
def verify_web3_deposit (network : String) (vamount : Rat)
    (tron_info : Option TronTxInfo) (bsc_info : Option BscTxInfo)
    (tx_hash : String) (uid : Nat) (st : LedgerState) :
    LedgerState × VerifyDepositOutcome :=
  match st.transactions.find? (fun t =>
      t.user_id == uid && t.type == "deposit" && t.status == "pending" &&
      t.provider == some network && t.amount == vamount) with
  | none => (st, .noPendingDeposit)
  | some dep =>
    if network = "TRC20" ∨ network = "BEP20" then
      match (if network = "TRC20" then verify_transaction_trc20 tron_info vamount
             else verify_transaction_bep20 bsc_info vamount) with
      | .error e => (st, .notVerified e)
      | .ok observed =>
        let usd := convert_usdt_to_usd observed
        let st1 := update_tx st dep.id (fun t =>
          { t with status := "completed"
                   transaction_hash := some tx_hash
                   notes := some ("Verified on " ++ network) })
        let st2 := { st1 with users := credit_user uid usd st1.users }
        (st2, .verified observed usd (user_balance_of st2 uid))
    else (st, .invalidNetwork)

/-- State transformer of `verify_web3_deposit`. -/
def verify_web3_deposit_state (network : String) (vamount : Rat)
    (tron_info : Option TronTxInfo) (bsc_info : Option BscTxInfo)
    (tx_hash : String) (uid : Nat) (st : LedgerState) : LedgerState :=
  (verify_web3_deposit network vamount tron_info bsc_info tx_hash uid st).1

/-- Failure taxonomy of router `create_web3_deposit` (the source raises
`HTTPException` with the corresponding message). -/
inductive DepositCreateError where
  | invalidNetwork
  | amountTooLow (min_d : Rat)
  | amountTooHigh (max_d : Rat)
  deriving DecidableEq, Repr

/-- Router `create_web3_deposit` followed by
`Web3Service.create_deposit_address`: validate the network literally, check
the amount against the network's `[min_deposit, max_deposit]`, then insert a
pending address record expiring 24 hours (86400 s) after `now`.
`fresh_address` stands for the randomly generated custodial address. All
failures happen before any write. -/
def create_web3_deposit (network : String) (amount : Rat) (uid : Nat)
    (fresh_address : String) (now : Int) (st : LedgerState) :
    Except DepositCreateError (LedgerState × Web3DepositAddress) :=
  if network = "TRC20" ∨ network = "BEP20" then
    if amount < ((get_network_info network).map (fun ni => ni.min_deposit)).getD 10 then
      .error (.amountTooLow (((get_network_info network).map (fun ni => ni.min_deposit)).getD 10))
    else if ((get_network_info network).map (fun ni => ni.max_deposit)).getD 100000 < amount then
      .error (.amountTooHigh (((get_network_info network).map (fun ni => ni.max_deposit)).getD 100000))
    else
      let a : Web3DepositAddress :=
        { id := st.next_addr_id, user_id := uid, address := fresh_address,
          network := strUpper network, amount := amount, status := "pending",
          expires_at := now + 86400, created_at := now, completed_at := none }
      .ok ({ st with deposit_addresses := st.deposit_addresses ++ [a]
                     next_addr_id := st.next_addr_id + 1 }, a)
  else .error .invalidNetwork

/-- State transformer of `create_web3_deposit` (error ⇒ no write). -/
def create_web3_deposit_state (network : String) (amount : Rat) (uid : Nat)
    (fresh_address : String) (now : Int) (st : LedgerState) : LedgerState :=
  match create_web3_deposit network amount uid fresh_address now st with
  | .ok (st2, _) => st2
  | .error _ => st

/-- One step of the deposit/withdrawal subsystem: any of its operations,
with arbitrary request parameters, Oracle behaviour and clock. -/
inductive Step : LedgerState → LedgerState → Prop where
  | deposit_create (network : String) (amount : Rat) (uid : Nat)
      (fresh_address : String) (now : Int) (st : LedgerState) :
      Step st (create_web3_deposit_state network amount uid fresh_address now st)
  | sweep (now : Int) (st : LedgerState) :
      Step st (expire_deposit_addresses now st)
  | tick (oracle : String → String → Option Rat) (now : Int) (st : LedgerState) :
      Step st (monitor_deposits_tick oracle now st)
  | withdrawal_create (oracle : String → String → Option Rat) (network : String)
      (amount : Rat) (wallet : String) (uid : Nat) (st : LedgerState) :
      Step st (create_web3_withdrawal_state oracle network amount wallet uid st)
  | withdrawal_process (oracle : String → String → Option Rat)
      (send : SendCall → SendResult) (withdrawal_id uid : Nat) (st : LedgerState) :
      Step st (process_web3_withdrawal_state oracle send withdrawal_id uid st)
  | deposit_verify (network : String) (vamount : Rat)
      (tron_info : Option TronTxInfo) (bsc_info : Option BscTxInfo)
      (tx_hash : String) (uid : Nat) (st : LedgerState) :
      Step st (verify_web3_deposit_state network vamount tron_info bsc_info tx_hash uid st)

/-- An initial store: any user rows, no transactions, no deposit addresses. -/
def initial (users : List User) : LedgerState :=
  { users := users, transactions := [], deposit_addresses := [],
    next_tx_id := 0, next_addr_id := 0 }

/-- States reachable from an initial store through the subsystem's
operations. -/
inductive Reachable : LedgerState → Prop where
  | init (users : List User) : Reachable (initial users)
  | step {s t : LedgerState} : Reachable s → Step s t → Reachable t

/-! ## Claim C9: fixed absolute tolerance 0.01 in on-chain verification -/

/-- C9: the on-chain deposit-verification operation reports a verified
amount only when `|observed − expected| ≤ 0.01`; once the transaction-level
checks pass, a difference greater than `0.01` yields exactly the
amount-mismatch failure — on both the TRC20 and the BEP20 network. -/
theorem C9_verification_tolerance :
    (∀ (info : Option TronTxInfo) (expected amt : Rat),
        verify_transaction_trc20 info expected = .ok amt →
        |amt - expected| ≤ 1/100) ∧
    (∀ (i : TronTxInfo) (expected : Rat),
        i.contractRet = "SUCCESS" → i.contract_type = "TriggerSmartContract" →
        i.to_address = usdt_trc20_address →
        1/100 < |i.transfer_amount - expected| →
        verify_transaction_trc20 (some i) expected =
          .error (.amountMismatch expected i.transfer_amount)) ∧
    (∀ (info : Option BscTxInfo) (expected amt : Rat),
        verify_transaction_bep20 info expected = .ok amt →
        |amt - expected| ≤ 1/100) ∧
    (∀ (i : BscTxInfo) (expected : Rat),
        i.receipt_status = 1 → strLower i.to_address = strLower usdt_bep20_address →
        1/100 < |i.transfer_amount - expected| →
        verify_transaction_bep20 (some i) expected =
          .error (.amountMismatch expected i.transfer_amount)) := by
  refine ⟨?_, ?_, ?_, ?_⟩
  · intro info expected amt h
    cases info with
    | none => exact absurd h (by simp [verify_transaction_trc20])
    | some i =>
      simp only [verify_transaction_trc20] at h
      split at h
      · exact absurd h (by simp)
      · split at h
        · exact absurd h (by simp)
        · split at h
          · exact absurd h (by simp)
          · split at h
            · exact absurd h (by simp)
            · rename_i hlt
              injection h with h2
              subst h2
              exact le_of_not_lt hlt
  · intro i expected h1 h2 h3 h4
    simp only [verify_transaction_trc20]
    rw [if_neg (by simp [h1]), if_neg (by simp [h2]), if_neg (by simp [h3]), if_pos h4]
  · intro info expected amt h
    cases info with
    | none => exact absurd h (by simp [verify_transaction_bep20])
    | some i =>
      simp only [verify_transaction_bep20] at h
      split at h
      · exact absurd h (by simp)
      · split at h
        · exact absurd h (by simp)
        · split at h
          · exact absurd h (by simp)
          · rename_i hlt
            injection h with h2
            subst h2
            exact le_of_not_lt hlt
  · intro i expected h1 h2 h4
    simp only [verify_transaction_bep20]
    rw [if_neg (by simp [h1]), if_neg (by simp [h2]), if_pos h4]

/-- Witness for C9 at concrete inputs: an exact match is accepted on TRC20,
and an observed amount of 51 against an expected 50 is rejected as an amount
mismatch on both networks. -/
theorem C9_verification_tolerance_witness :
    |(50 : Rat) - 50| ≤ 1/100 ∧
    verify_transaction_trc20
      (some ⟨"SUCCESS", "TriggerSmartContract", usdt_trc20_address, "Tsender", 51⟩) 50 =
      .error (.amountMismatch 50 51) ∧
    verify_transaction_bep20
      (some ⟨1, usdt_bep20_address, "0xsender", 51⟩) 50 =
      .error (.amountMismatch 50 51) :=
  ⟨C9_verification_tolerance.1
      (some ⟨"SUCCESS", "TriggerSmartContract", usdt_trc20_address, "Tsender", 50⟩) 50 50
      (by simp only [verify_transaction_trc20]
          rw [if_neg (by simp), if_neg (by simp), if_neg (by simp), if_neg (by norm_num)]),
   C9_verification_tolerance.2.1
      ⟨"SUCCESS", "TriggerSmartContract", usdt_trc20_address, "Tsender", 51⟩ 50
      rfl rfl rfl (by norm_num),
   C9_verification_tolerance.2.2.2
      ⟨1, usdt_bep20_address, "0xsender", 51⟩ 50
      rfl rfl (by norm_num)⟩

/-! ## Claim C8: deposit-creation validation is synchronous and writes nothing -/

/-- Both recognised networks configure deposit and withdrawal bounds
`[10, 100000]`. -/
theorem get_network_info_bounds (network : String) (ni : NetworkInfo)
    (hvalid : network = "TRC20" ∨ network = "BEP20")
    (hni : get_network_info network = some ni) :
    ni.min_deposit = 10 ∧ ni.max_deposit = 100000 ∧
    ni.min_withdrawal = 10 ∧ ni.max_withdrawal = 100000 := by
  rcases hvalid with rfl | rfl
  · rw [show get_network_info "TRC20" =
        some ⟨"Tron Network", "USDT", 6, 10, 100000, 10, 100000, 1⟩ from rfl] at hni
    injection hni with h
    subst h
    exact ⟨rfl, rfl, rfl, rfl⟩
  · rw [show get_network_info "BEP20" =
        some ⟨"Binance Smart Chain", "USDT", 18, 10, 100000, 10, 100000, 1/2⟩ from rfl] at hni
    injection hni with h
    subst h
    exact ⟨rfl, rfl, rfl, rfl⟩

/-- C8: a deposit-address creation request with an unrecognised network fails
with the invalid-network error, and one with an amount outside the network's
configured `[min_deposit, max_deposit]` bounds fails with the corresponding
invalid-amount error; in every failing case the returned state is exactly the
input state (no `DepositAddress` record is created). -/
theorem C8_deposit_validation :
    (∀ (network : String) (amount : Rat) (uid : Nat) (addr : String) (now : Int)
        (st : LedgerState), network ≠ "TRC20" → network ≠ "BEP20" →
        create_web3_deposit network amount uid addr now st = .error .invalidNetwork ∧
        create_web3_deposit_state network amount uid addr now st = st) ∧
    (∀ (network : String) (amount : Rat) (uid : Nat) (addr : String) (now : Int)
        (st : LedgerState) (ni : NetworkInfo),
        (network = "TRC20" ∨ network = "BEP20") → get_network_info network = some ni →
        (amount < ni.min_deposit →
          create_web3_deposit network amount uid addr now st =
            .error (.amountTooLow ni.min_deposit) ∧
          create_web3_deposit_state network amount uid addr now st = st) ∧
        (ni.max_deposit < amount →
          create_web3_deposit network amount uid addr now st =
            .error (.amountTooHigh ni.max_deposit) ∧
          create_web3_deposit_state network amount uid addr now st = st)) := by
  constructor
  · intro network amount uid addr now st h1 h2
    have hc : create_web3_deposit network amount uid addr now st = .error .invalidNetwork := by
      unfold create_web3_deposit
      rw [if_neg (by simp [h1, h2])]
    exact ⟨hc, by unfold create_web3_deposit_state; rw [hc]⟩
  · intro network amount uid addr now st ni hvalid hni
    have e1 : ((get_network_info network).map (fun x => x.min_deposit)).getD 10
        = ni.min_deposit := by rw [hni]; rfl
    have e2 : ((get_network_info network).map (fun x => x.max_deposit)).getD 100000
        = ni.max_deposit := by rw [hni]; rfl
    constructor
    · intro hlt
      have hc : create_web3_deposit network amount uid addr now st =
          .error (.amountTooLow ni.min_deposit) := by
        unfold create_web3_deposit
        rw [if_pos hvalid, e1, if_pos hlt]
      exact ⟨hc, by unfold create_web3_deposit_state; rw [hc]⟩
    · intro hgt
      have hc : create_web3_deposit network amount uid addr now st =
          .error (.amountTooHigh ni.max_deposit) := by
        unfold create_web3_deposit
        have hmm : ni.min_deposit ≤ ni.max_deposit := by
          obtain ⟨u1, u2, _, _⟩ := get_network_info_bounds network ni hvalid hni
          rw [u1, u2]; norm_num
        rw [if_pos hvalid, e1, e2]
        rw [if_neg (not_lt.mpr (le_trans hmm hgt.le)), if_pos hgt]
      exact ⟨hc, by unfold create_web3_deposit_state; rw [hc]⟩

/-- Witness for C8: network "DOGE" is rejected as invalid, a 5 USDT deposit
on TRC20 is below the 10 USDT minimum, a 200000 USDT deposit is above the
100000 maximum; the store is untouched each time. -/
theorem C8_deposit_validation_witness :
    (create_web3_deposit "DOGE" 50 1 "X" 0 (initial []) = .error .invalidNetwork ∧
     create_web3_deposit_state "DOGE" 50 1 "X" 0 (initial []) = initial []) ∧
    (create_web3_deposit "TRC20" 5 1 "X" 0 (initial []) = .error (.amountTooLow 10) ∧
     create_web3_deposit_state "TRC20" 5 1 "X" 0 (initial []) = initial []) ∧
    (create_web3_deposit "BEP20" 200000 1 "X" 0 (initial []) = .error (.amountTooHigh 100000) ∧
     create_web3_deposit_state "BEP20" 200000 1 "X" 0 (initial []) = initial []) := by
  refine ⟨C8_deposit_validation.1 "DOGE" 50 1 "X" 0 (initial []) (by decide) (by decide),
          ?_, ?_⟩
  · have h := (C8_deposit_validation.2 "TRC20" 5 1 "X" 0 (initial [])
      { name := "Tron Network", currency := "USDT", decimals := 6,
        min_deposit := 10, max_deposit := 100000, min_withdrawal := 10,
        max_withdrawal := 100000, withdrawal_fee := 1 } (Or.inl rfl) rfl).1 (by norm_num)
    exact h
  · have h := (C8_deposit_validation.2 "BEP20" 200000 1 "X" 0 (initial [])
      { name := "Binance Smart Chain", currency := "USDT", decimals := 18,
        min_deposit := 10, max_deposit := 100000, min_withdrawal := 10,
        max_withdrawal := 100000, withdrawal_fee := 1/2 } (Or.inr rfl) rfl).2 (by norm_num)
    exact h

/-! ## Claim C7: withdrawals exceeding the user's balance -/

/-- Counterexample to C7 as stated: for the request `amount = 5` on TRC20
with user balance `3`, the amount exceeds the balance, yet the eligibility
check fails with the below-minimum error (the bounds checks run first), not
with the insufficient-user-balance error the claim requires for *every* such
request. -/
theorem C7_counterexample :
    check_withdrawal_eligibility (fun _ _ => some 1000000) "TRC20" 5 3 =
      .error (.belowMinimum 10) ∧
    ((3 : Rat) < 5) ∧
    WithdrawalError.belowMinimum 10 ≠
      WithdrawalError.insufficientUserBalance 3 5 := by
  refine ⟨by rfl, by decide, by decide⟩

/-- C7 (amended): for every withdrawal request on a recognised network whose
amount lies within the network's `[min_withdrawal, max_withdrawal]` bounds
and exceeds the user's balance, the eligibility check returns the
insufficient-user-balance error, the creation endpoint returns that error,
and the store is returned unchanged (balance untouched, no `Transaction`
created). -/
theorem C7_insufficient_balance (oracle : String → String → Option Rat)
    (network wallet : String) (amount : Rat) (uid : Nat) (st : LedgerState)
    (ni : NetworkInfo)
    (hvalid : network = "TRC20" ∨ network = "BEP20")
    (hni : get_network_info network = some ni)
    (hmin : ni.min_withdrawal ≤ amount) (hmax : amount ≤ ni.max_withdrawal)
    (hbal : user_balance_of st uid < amount) :
    check_withdrawal_eligibility oracle network amount (user_balance_of st uid) =
      .error (.insufficientUserBalance (user_balance_of st uid) amount) ∧
    create_web3_withdrawal oracle network amount wallet uid st =
      .error (.insufficientUserBalance (user_balance_of st uid) amount) ∧
    create_web3_withdrawal_state oracle network amount wallet uid st = st := by
  have hc : check_withdrawal_eligibility oracle network amount (user_balance_of st uid) =
      .error (.insufficientUserBalance (user_balance_of st uid) amount) := by
    simp only [check_withdrawal_eligibility, hni]
    rw [if_neg (not_lt.mpr hmin), if_neg (not_lt.mpr hmax), if_pos hbal]
  refine ⟨hc, ?_, ?_⟩
  · unfold create_web3_withdrawal
    rw [if_pos hvalid, hc]
  · unfold create_web3_withdrawal_state create_web3_withdrawal
    rw [if_pos hvalid, hc]

/-- Witness for C7 (amended) at the spec's own scenario: balance 10,
requested amount 50 on TRC20 — rejected as insufficient user balance with
the store unchanged. -/
theorem C7_insufficient_balance_witness :
    check_withdrawal_eligibility (fun _ _ => some 1000000) "TRC20" 50 10 =
      .error (.insufficientUserBalance 10 50) ∧
    create_web3_withdrawal (fun _ _ => some 1000000) "TRC20" 50 "Tdest" 1
      { users := [⟨1, 10⟩], transactions := [], deposit_addresses := [],
        next_tx_id := 0, next_addr_id := 0 } =
      .error (.insufficientUserBalance 10 50) ∧
    create_web3_withdrawal_state (fun _ _ => some 1000000) "TRC20" 50 "Tdest" 1
      { users := [⟨1, 10⟩], transactions := [], deposit_addresses := [],
        next_tx_id := 0, next_addr_id := 0 } =
      { users := [⟨1, 10⟩], transactions := [], deposit_addresses := [],
        next_tx_id := 0, next_addr_id := 0 } :=
  C7_insufficient_balance (fun _ _ => some 1000000) "TRC20" "Tdest" 50 1
    { users := [⟨1, 10⟩], transactions := [], deposit_addresses := [],
      next_tx_id := 0, next_addr_id := 0 }
    ⟨"Tron Network", "USDT", 6, 10, 100000, 10, 100000, 1⟩
    (Or.inl rfl) rfl (by decide) (by decide) (by decide)

/-! ## Claims C2 and C10: withdrawal request, debit timing, fee handling -/

/-- Counterexample to C2 as stated: a withdrawal request for 50 by a user
with balance 100 passes the eligibility check and creates a pending
transaction, yet the user's balance after the request is still 100 — the
source performs no debit at request time (the debit happens only in
`process_web3_withdrawal` after a successful broadcast). -/
theorem C2_counterexample :
    ((create_web3_withdrawal_state (fun _ _ => some 1000000) "TRC20" 50 "Tdest" 1
        { users := [⟨1, 100⟩], transactions := [], deposit_addresses := [],
          next_tx_id := 0, next_addr_id := 0 }).transactions.map
        (fun t => (t.type, t.status, t.amount)) = [("withdrawal", "pending", 50)]) ∧
    (create_web3_withdrawal_state (fun _ _ => some 1000000) "TRC20" 50 "Tdest" 1
        { users := [⟨1, 100⟩], transactions := [], deposit_addresses := [],
          next_tx_id := 0, next_addr_id := 0 }).users = [⟨1, 100⟩] ∧
    ((100 : Rat) ≠ 100 - 50) := by
  refine ⟨by rfl, by rfl, by norm_num⟩

/-- C2 (amended): a withdrawal request that passes the eligibility check
creates a pending `Transaction` carrying the full requested amount at request
time but leaves every user balance untouched; the debit of the requested
amount is applied only by the processing endpoint, and only in its
broadcast-success branch (every failing processing outcome also leaves the
balances untouched). -/
theorem C2_no_debit_at_request :
    (∀ (oracle : String → String → Option Rat) (network : String) (amount : Rat)
        (wallet : String) (uid : Nat) (st : LedgerState),
        ((create_web3_withdrawal oracle network amount wallet uid st).toOption).isSome = true →
        (create_web3_withdrawal_state oracle network amount wallet uid st).users = st.users ∧
        ∃ t, (create_web3_withdrawal_state oracle network amount wallet uid st).transactions =
              st.transactions ++ [t] ∧
          t.type = "withdrawal" ∧ t.status = "pending" ∧ t.amount = amount) ∧
    (∀ (oracle : String → String → Option Rat) (send : SendCall → SendResult)
        (wid uid : Nat) (st : LedgerState) (nb : Rat),
        (process_web3_withdrawal oracle send wid uid st).2.2 = .ok nb →
        ∃ w ∈ st.transactions, w.type = "withdrawal" ∧ w.status = "pending" ∧
          (process_web3_withdrawal oracle send wid uid st).1.users =
            debit_user uid w.amount st.users) ∧
    (∀ (oracle : String → String → Option Rat) (send : SendCall → SendResult)
        (wid uid : Nat) (st : LedgerState) (pe : ProcessError),
        (process_web3_withdrawal oracle send wid uid st).2.2 = .error pe →
        (process_web3_withdrawal oracle send wid uid st).1.users = st.users) := by
  refine ⟨?_, ?_, ?_⟩
  · intro oracle network amount wallet uid st h
    by_cases hval : network = "TRC20" ∨ network = "BEP20"
    · rcases he : check_withdrawal_eligibility oracle network amount
          (user_balance_of st uid) with e | pb
      · exfalso
        unfold create_web3_withdrawal at h
        rw [if_pos hval, he] at h
        simp [Except.toOption] at h
      · have hc : create_web3_withdrawal oracle network amount wallet uid st =
            .ok ({ st with
                    transactions := st.transactions ++
                      [withdrawal_transaction st.next_tx_id uid network amount
                        (((get_network_info network).map
                          (fun ni => ni.withdrawal_fee)).getD 1) wallet]
                    next_tx_id := st.next_tx_id + 1 }, st.next_tx_id) := by
          unfold create_web3_withdrawal
          rw [if_pos hval, he]
        unfold create_web3_withdrawal_state
        rw [hc]
        exact ⟨rfl, _, rfl, rfl, rfl, rfl⟩
    · exfalso
      unfold create_web3_withdrawal at h
      rw [if_neg hval] at h
      simp [Except.toOption] at h
  · intro oracle send wid uid st nb h
    rcases hfind : st.transactions.find? (fun t =>
        t.id == wid && t.user_id == uid &&
        t.type == "withdrawal" && t.status == "pending") with _ | w
    · exfalso
      simp only [process_web3_withdrawal, hfind] at h
      exact Except.noConfusion h
    · have hw := List.mem_of_find?_eq_some hfind
      have hp := List.find?_some hfind
      simp only [Bool.and_eq_true, beq_iff_eq] at hp
      rcases he : check_withdrawal_eligibility oracle (w.provider.getD "") w.amount
          (user_balance_of st uid) with e | pb
      · exfalso
        simp only [process_web3_withdrawal, hfind, he] at h
        exact Except.noConfusion h
      · by_cases hprov : w.provider = some "TRC20" ∨ w.provider = some "BEP20"
        · rcases hsend : send ⟨w.provider.getD "", w.wallet_address.getD "", w.amount⟩
              with hh | err
          · refine ⟨w, hw, hp.1.2, hp.2, ?_⟩
            simp only [process_web3_withdrawal, hfind, he, if_pos hprov, hsend,
              update_tx]
          · exfalso
            simp only [process_web3_withdrawal, hfind, he, if_pos hprov, hsend] at h
            exact Except.noConfusion h
        · exfalso
          simp only [process_web3_withdrawal, hfind, he, if_neg hprov] at h
          exact Except.noConfusion h
  · intro oracle send wid uid st pe h
    rcases hfind : st.transactions.find? (fun t =>
        t.id == wid && t.user_id == uid &&
        t.type == "withdrawal" && t.status == "pending") with _ | w
    · simp only [process_web3_withdrawal, hfind]
    · rcases he : check_withdrawal_eligibility oracle (w.provider.getD "") w.amount
          (user_balance_of st uid) with e | pb
      · simp only [process_web3_withdrawal, hfind, he, update_tx]
      · by_cases hprov : w.provider = some "TRC20" ∨ w.provider = some "BEP20"
        · rcases hsend : send ⟨w.provider.getD "", w.wallet_address.getD "", w.amount⟩
              with hh | err
          · exfalso
            simp only [process_web3_withdrawal, hfind, he, if_pos hprov, hsend] at h
            exact Except.noConfusion h
          · simp only [process_web3_withdrawal, hfind, he, if_pos hprov, hsend,
              update_tx]
        · simp only [process_web3_withdrawal, hfind, he, if_neg hprov, update_tx]

/-- Fixture: an Oracle with ample balances everywhere. -/
def rich_oracle : String → String → Option Rat := fun _ _ => some 1000000

/-- Fixture: a pending TRC20 withdrawal row (id 9, user 1, amount 50). -/
def w9 : Transaction :=
  { id := 9, user_id := 1, type := "withdrawal", amount := 50, currency := "USDT",
    status := "pending", transaction_hash := none, wallet_address := some "Tdest",
    provider := some "TRC20", description := none, notes := none, network := none,
    deposit_address_id := none }

/-- Fixture: store holding user 1 with balance 100 and the pending
withdrawal `w9`. -/
def stw9 : LedgerState :=
  { users := [⟨1, 100⟩], transactions := [w9], deposit_addresses := [],
    next_tx_id := 10, next_addr_id := 0 }

/-- Witness for C2 (amended): the accepted request leaves the balance at 100
and appends one pending withdrawal of 50; processing it with a succeeding
broadcaster debits exactly 50; processing it with a failing broadcaster
leaves balances unchanged. -/
theorem C2_no_debit_at_request_witness :
    ((create_web3_withdrawal_state rich_oracle "TRC20" 50 "Tdest" 1
        { users := [⟨1, 100⟩], transactions := [], deposit_addresses := [],
          next_tx_id := 0, next_addr_id := 0 }).users = [⟨1, 100⟩] ∧
      ∃ t, (create_web3_withdrawal_state rich_oracle "TRC20" 50 "Tdest" 1
          { users := [⟨1, 100⟩], transactions := [], deposit_addresses := [],
            next_tx_id := 0, next_addr_id := 0 }).transactions = [] ++ [t] ∧
        t.type = "withdrawal" ∧ t.status = "pending" ∧ t.amount = 50) ∧
    (∃ w ∈ stw9.transactions, w.type = "withdrawal" ∧ w.status = "pending" ∧
      (process_web3_withdrawal rich_oracle (fun _ => .success "0xh") 9 1 stw9).1.users =
        debit_user 1 w.amount stw9.users) ∧
    (process_web3_withdrawal rich_oracle (fun _ => .failure "node down") 9 1 stw9).1.users =
      stw9.users :=
  ⟨C2_no_debit_at_request.1 rich_oracle "TRC20" 50 "Tdest" 1
      { users := [⟨1, 100⟩], transactions := [], deposit_addresses := [],
        next_tx_id := 0, next_addr_id := 0 } rfl,
   C2_no_debit_at_request.2.1 rich_oracle (fun _ => .success "0xh") 9 1 stw9
      (100 - 50) rfl,
   C2_no_debit_at_request.2.2 rich_oracle (fun _ => .failure "node down") 9 1 stw9
      (.sendFailed "node down") rfl⟩

/-- Row updates that do not touch `amount` leave the ledger's amounts
pointwise unchanged. -/
theorem update_tx_amounts (st : LedgerState) (txid : Nat) (f : Transaction → Transaction)
    (hf : ∀ t, (f t).amount = t.amount) :
    (update_tx st txid f).transactions.map (fun t => t.amount) =
      st.transactions.map (fun t => t.amount) := by
  unfold update_tx
  simp only [List.map_map]
  apply List.map_congr_left
  intro t _
  by_cases h : t.id = txid
  · simp [h, hf]
  · simp [h]

/-- C10: a successful withdrawal broadcasts the full requested amount and
debits the full requested amount; the per-network fee and the derived net
amount influence only the free-text `notes` of the created row (they appear
in no stored `amount` and in no balance mutation). The created row's
`amount` is the full requested amount, the processing step's only broadcast
call carries the stored (full) amount, the balance debit equals that amount,
and no ledger row's `amount` is changed by processing. -/
theorem C10_fee_only_in_notes :
    (∀ (oracle : String → String → Option Rat) (network : String) (amount : Rat)
        (wallet : String) (uid : Nat) (st : LedgerState),
        ((create_web3_withdrawal oracle network amount wallet uid st).toOption).isSome = true →
        (create_web3_withdrawal_state oracle network amount wallet uid st).transactions =
          st.transactions ++
            [withdrawal_transaction st.next_tx_id uid network amount
              (((get_network_info network).map (fun ni => ni.withdrawal_fee)).getD 1) wallet] ∧
        (withdrawal_transaction st.next_tx_id uid network amount
            (((get_network_info network).map (fun ni => ni.withdrawal_fee)).getD 1) wallet).amount
          = amount) ∧
    (∀ (oracle : String → String → Option Rat) (send : SendCall → SendResult)
        (wid uid : Nat) (st : LedgerState) (nb : Rat),
        (process_web3_withdrawal oracle send wid uid st).2.2 = .ok nb →
        ∃ w ∈ st.transactions,
          (process_web3_withdrawal oracle send wid uid st).2.1 =
            [⟨w.provider.getD "", w.wallet_address.getD "", w.amount⟩] ∧
          (process_web3_withdrawal oracle send wid uid st).1.users =
            debit_user uid w.amount st.users ∧
          (process_web3_withdrawal oracle send wid uid st).1.transactions.map
              (fun t => t.amount) =
            st.transactions.map (fun t => t.amount)) := by
  constructor
  · intro oracle network amount wallet uid st h
    by_cases hval : network = "TRC20" ∨ network = "BEP20"
    · rcases he : check_withdrawal_eligibility oracle network amount
          (user_balance_of st uid) with e | pb
      · exfalso
        unfold create_web3_withdrawal at h
        rw [if_pos hval, he] at h
        simp [Except.toOption] at h
      · have hc : create_web3_withdrawal oracle network amount wallet uid st =
            .ok ({ st with
                    transactions := st.transactions ++
                      [withdrawal_transaction st.next_tx_id uid network amount
                        (((get_network_info network).map
                          (fun ni => ni.withdrawal_fee)).getD 1) wallet]
                    next_tx_id := st.next_tx_id + 1 }, st.next_tx_id) := by
          unfold create_web3_withdrawal
          rw [if_pos hval, he]
        unfold create_web3_withdrawal_state
        rw [hc]
        exact ⟨rfl, rfl⟩
    · exfalso
      unfold create_web3_withdrawal at h
      rw [if_neg hval] at h
      simp [Except.toOption] at h
  · intro oracle send wid uid st nb h
    rcases hfind : st.transactions.find? (fun t =>
        t.id == wid && t.user_id == uid &&
        t.type == "withdrawal" && t.status == "pending") with _ | w
    · exfalso
      simp only [process_web3_withdrawal, hfind] at h
      exact Except.noConfusion h
    · have hw := List.mem_of_find?_eq_some hfind
      rcases he : check_withdrawal_eligibility oracle (w.provider.getD "") w.amount
          (user_balance_of st uid) with e | pb
      · exfalso
        simp only [process_web3_withdrawal, hfind, he] at h
        exact Except.noConfusion h
      · by_cases hprov : w.provider = some "TRC20" ∨ w.provider = some "BEP20"
        · rcases hsend : send ⟨w.provider.getD "", w.wallet_address.getD "", w.amount⟩
              with hh | err
          · refine ⟨w, hw, ?_, ?_, ?_⟩
            · simp only [process_web3_withdrawal, hfind, he, if_pos hprov, hsend]
            · simp only [process_web3_withdrawal, hfind, he, if_pos hprov, hsend,
                update_tx]
            · simp only [process_web3_withdrawal, hfind, he, if_pos hprov, hsend]
              exact update_tx_amounts st w.id _ (fun t => rfl)
          · exfalso
            simp only [process_web3_withdrawal, hfind, he, if_pos hprov, hsend] at h
            exact Except.noConfusion h
        · exfalso
          simp only [process_web3_withdrawal, hfind, he, if_neg hprov] at h
          exact Except.noConfusion h

/-- Witness for C10 at the concrete 50-USDT TRC20 withdrawal of user 1
(balance 100): the created row stores amount 50 with the 1 USDT fee only in
its notes, and processing broadcasts and debits exactly 50. -/
theorem C10_fee_only_in_notes_witness :
    ((create_web3_withdrawal_state rich_oracle "TRC20" 50 "Tdest" 1
        { users := [⟨1, 100⟩], transactions := [], deposit_addresses := [],
          next_tx_id := 0, next_addr_id := 0 }).transactions =
      [] ++ [withdrawal_transaction 0 1 "TRC20" 50
        (((get_network_info "TRC20").map (fun ni => ni.withdrawal_fee)).getD 1) "Tdest"] ∧
     (withdrawal_transaction 0 1 "TRC20" 50
        (((get_network_info "TRC20").map (fun ni => ni.withdrawal_fee)).getD 1)
        "Tdest").amount = 50) ∧
    (∃ w ∈ stw9.transactions,
      (process_web3_withdrawal rich_oracle (fun _ => .success "0xh") 9 1 stw9).2.1 =
        [⟨w.provider.getD "", w.wallet_address.getD "", w.amount⟩] ∧
      (process_web3_withdrawal rich_oracle (fun _ => .success "0xh") 9 1 stw9).1.users =
        debit_user 1 w.amount stw9.users ∧
      (process_web3_withdrawal rich_oracle (fun _ => .success "0xh") 9 1 stw9).1.transactions.map
          (fun t => t.amount) =
        stw9.transactions.map (fun t => t.amount)) :=
  ⟨C10_fee_only_in_notes.1 rich_oracle "TRC20" 50 "Tdest" 1
      { users := [⟨1, 100⟩], transactions := [], deposit_addresses := [],
        next_tx_id := 0, next_addr_id := 0 } rfl,
   C10_fee_only_in_notes.2 rich_oracle (fun _ => .success "0xh") 9 1 stw9
      (100 - 50) rfl⟩

/-! ## Claim C1: which amount is credited on settlement -/

/-- Fixture: a pending web3 deposit ledger row (user 1, TRC20, amount 50)
as found by the verification endpoint. -/
def dep50 : Transaction :=
  { id := 2, user_id := 1, type := "deposit", amount := 50, currency := "USDT",
    status := "pending", transaction_hash := none, wallet_address := none,
    provider := some "TRC20", description := none, notes := none, network := none,
    deposit_address_id := none }

/-- Fixture: store holding user 1 with balance 0 and the pending deposit
row `dep50`. -/
def stv50 : LedgerState :=
  { users := [⟨1, 0⟩], transactions := [dep50], deposit_addresses := [],
    next_tx_id := 3, next_addr_id := 0 }

/-- Fixture: an on-chain Tron transfer of 50.005 USDT into the platform
contract — within the 0.01 verification tolerance of an expected 50. -/
def tron_505 : TronTxInfo :=
  ⟨"SUCCESS", "TriggerSmartContract", usdt_trc20_address, "Tsender", 10001/200⟩

/-- Counterexample to C1 as stated: the deposit-verification path credits the
*observed* on-chain amount. With an expected deposit of 50 and an observed
transfer of 50.005 (within tolerance), verification succeeds and the user's
balance becomes 50.005 — not the expected 50 the claim requires. -/
theorem C1_counterexample :
    (verify_web3_deposit "TRC20" 50 (some tron_505) none "0xh" 1 stv50).1.users =
      [⟨1, 10001/200⟩] ∧
    ((10001 : Rat)/200 ≠ 50) := by
  have hv : verify_transaction_trc20 (some tron_505) 50 = .ok (10001/200) := by
    simp only [verify_transaction_trc20, tron_505]
    rw [if_neg (by simp), if_neg (by simp), if_neg (by simp),
      if_neg (by norm_num [abs_le])]
  constructor
  · have hfind : stv50.transactions.find? (fun t =>
        t.user_id == 1 && t.type == "deposit" && t.status == "pending" &&
        t.provider == some "TRC20" && t.amount == 50) = some dep50 := by rfl
    simp only [verify_web3_deposit, hfind, hv, update_tx, credit_user,
      convert_usdt_to_usd, stv50, dep50]
    norm_num
  · norm_num

/-- C1 (amended): the reconciliation engine's balance-match settlement always
credits the *expected* amount recorded on the deposit address (never the
observed balance); the deposit-verification endpoint instead credits the
*observed* on-chain amount reported by transaction verification, which may
differ from the recorded expected amount by up to the 0.01 tolerance. -/
theorem C1_credited_amounts :
    (∀ (oracle : String → String → Option Rat) (now : Int) (st : LedgerState)
        (a : Web3DepositAddress), settle_guard oracle a →
        (settle_one oracle now st a).transactions =
            st.transactions ++ [deposit_transaction st.next_tx_id a] ∧
        (deposit_transaction st.next_tx_id a).amount = a.amount ∧
        (settle_one oracle now st a).users =
            credit_user a.user_id (convert_usdt_to_usd a.amount) st.users) ∧
    (∀ (network : String) (vamount : Rat) (tron_info : Option TronTxInfo)
        (bsc_info : Option BscTxInfo) (tx_hash : String) (uid : Nat)
        (st : LedgerState) (observed usd nb : Rat),
        (verify_web3_deposit network vamount tron_info bsc_info tx_hash uid st).2 =
          .verified observed usd nb →
        usd = convert_usdt_to_usd observed ∧
        (verify_web3_deposit network vamount tron_info bsc_info tx_hash uid st).1.users =
          credit_user uid (convert_usdt_to_usd observed) st.users) := by
  constructor
  · intro oracle now st a hg
    unfold settle_one
    rw [if_pos hg]
    exact ⟨rfl, rfl, rfl⟩
  · intro network vamount tron_info bsc_info tx_hash uid st observed usd nb h
    rcases hfind : st.transactions.find? (fun t =>
        t.user_id == uid && t.type == "deposit" && t.status == "pending" &&
        t.provider == some network && t.amount == vamount) with _ | dep
    · exfalso
      simp only [verify_web3_deposit, hfind] at h
      exact VerifyDepositOutcome.noConfusion h
    · by_cases hval : network = "TRC20" ∨ network = "BEP20"
      · rcases hv : (if network = "TRC20" then verify_transaction_trc20 tron_info vamount
            else verify_transaction_bep20 bsc_info vamount) with e | obs
        · exfalso
          simp only [verify_web3_deposit, hfind, if_pos hval, hv] at h
          exact VerifyDepositOutcome.noConfusion h
        · simp only [verify_web3_deposit, hfind, if_pos hval, hv] at h
          injection h with h1 h2 h3
          subst h1
          refine ⟨h2.symm, ?_⟩
          simp only [verify_web3_deposit, hfind, if_pos hval, hv, update_tx]
      · exfalso
        simp only [verify_web3_deposit, hfind, if_neg hval] at h
        exact VerifyDepositOutcome.noConfusion h

/-- Fixture: a pending, unexpired deposit address (id 7, user 1, TRC20,
expected amount 50). -/
def da7 : Web3DepositAddress :=
  { id := 7, user_id := 1, address := "Taddr", network := "TRC20", amount := 50,
    status := "pending", expires_at := 1000, created_at := 0, completed_at := none }

/-- Fixture: store holding user 1 (balance 3) and the deposit address `da7`. -/
def stda7 : LedgerState :=
  { users := [⟨1, 3⟩], transactions := [], deposit_addresses := [da7],
    next_tx_id := 5, next_addr_id := 8 }

/-- Fixture: an Oracle reporting balance 50 for every address. -/
def oracle50 : String → String → Option Rat := fun _ _ => some 50

/-- Fixture: an on-chain Tron transfer of exactly 50 USDT. -/
def tron_50 : TronTxInfo :=
  ⟨"SUCCESS", "TriggerSmartContract", usdt_trc20_address, "Tsender", 50⟩

/-- Witness for C1 (amended): settling `da7` (expected 50, observed 50)
appends a ledger row of amount 50 and credits user 1 with 50; the
verification endpoint on an exact 50 transfer credits the observed 50. -/
theorem C1_credited_amounts_witness :
    ((settle_one oracle50 10 stda7 da7).transactions =
        stda7.transactions ++ [deposit_transaction stda7.next_tx_id da7] ∧
      (deposit_transaction stda7.next_tx_id da7).amount = da7.amount ∧
      (settle_one oracle50 10 stda7 da7).users =
        credit_user da7.user_id (convert_usdt_to_usd da7.amount) stda7.users) ∧
    ((50 : Rat) = convert_usdt_to_usd 50 ∧
      (verify_web3_deposit "TRC20" 50 (some tron_50) none "0xh" 1 stv50).1.users =
        credit_user 1 (convert_usdt_to_usd 50) stv50.users) :=
  ⟨C1_credited_amounts.1 oracle50 10 stda7 da7 (by constructor <;> decide),
   C1_credited_amounts.2 "TRC20" 50 (some tron_50) none "0xh" 1 stv50 50 50 50
      (by
        have hv : verify_transaction_trc20 (some tron_50) 50 = .ok 50 := by
          simp only [verify_transaction_trc20, tron_50]
          rw [if_neg (by simp), if_neg (by simp), if_neg (by simp),
            if_neg (by norm_num)]
        have hfind : stv50.transactions.find? (fun t =>
            t.user_id == 1 && t.type == "deposit" && t.status == "pending" &&
            t.provider == some "TRC20" && t.amount == 50) = some dep50 := by rfl
        simp [verify_web3_deposit, hfind, hv, update_tx, credit_user,
          user_balance_of, convert_usdt_to_usd, stv50, dep50])⟩

/-! ## Claims C6 and C3: one engine tick on a single pending address -/

/-- C6: if the Oracle query for a pending, non-expired deposit address fails
during a tick (the source's getter catches the error and reports balance 0),
the tick is a complete no-op on the store: the address stays pending, no
transaction is created, no balance is credited — and, the tick being a total
function, no error escapes the loop; the unchanged pending record is polled
again next tick. -/
theorem C6_oracle_failure_skips (oracle : String → String → Option Rat)
    (now : Int) (a : Web3DepositAddress) (users : List User)
    (txs : List Transaction) (ntx nad : Nat)
    (hfail : oracle a.network a.address = none)
    (hpend : a.status = "pending") (hlive : now < a.expires_at)
    (hpos : 0 < a.amount) :
    monitor_deposits_tick oracle now
      { users := users, transactions := txs, deposit_addresses := [a],
        next_tx_id := ntx, next_addr_id := nad } =
      { users := users, transactions := txs, deposit_addresses := [a],
        next_tx_id := ntx, next_addr_id := nad } := by
  have hexp : expire_sweep_one now a = a := by
    unfold expire_sweep_one
    rw [if_neg]
    rintro ⟨h1, h2⟩
    exact absurd h2 (not_lt.mpr hlive.le)
  have hguard : ¬ settle_guard oracle a := by
    rintro ⟨h1, h2⟩
    simp only [get_usdt_balance, hfail] at h2
    exact absurd h2 (not_le.mpr hpos)
  have h1 : expire_deposit_addresses now
      { users := users, transactions := txs, deposit_addresses := [a],
        next_tx_id := ntx, next_addr_id := nad } =
      { users := users, transactions := txs, deposit_addresses := [a],
        next_tx_id := ntx, next_addr_id := nad } := by
    unfold expire_deposit_addresses
    simp [hexp]
  have h2 : pending_live now
      { users := users, transactions := txs, deposit_addresses := [a],
        next_tx_id := ntx, next_addr_id := nad } = [a] := by
    unfold pending_live
    simp [hpend, hlive]
  simp only [monitor_deposits_tick, h1, h2, List.foldl_cons, List.foldl_nil]
  unfold settle_one
  rw [if_neg hguard]

/-- Witness for C6: a failing Oracle leaves the store with the pending
address `da7` and user balance 3 completely unchanged after a tick. -/
theorem C6_oracle_failure_skips_witness :
    monitor_deposits_tick (fun _ _ => none) 10
      { users := [⟨1, 3⟩], transactions := [], deposit_addresses := [da7],
        next_tx_id := 5, next_addr_id := 8 } =
      { users := [⟨1, 3⟩], transactions := [], deposit_addresses := [da7],
        next_tx_id := 5, next_addr_id := 8 } :=
  C6_oracle_failure_skips (fun _ _ => none) 10 da7 [⟨1, 3⟩] [] 5 8
    rfl rfl (by decide) (by decide)

/-- C3: one engine tick on a store holding a single pending, unexpired
deposit address with expected amount 50, whose Oracle balance reads exactly
50, marks the address completed, creates exactly one completed deposit
transaction of amount 50 referencing it, and raises the owning user's
balance by exactly 50 (1:1 USDT→USD conversion). -/
theorem C3_round_trip (oracle : String → String → Option Rat) (now : Int)
    (a : Web3DepositAddress) (u : User) (ntx nad : Nat)
    (hnet : a.network = "TRC20" ∨ a.network = "BEP20")
    (hamt : a.amount = 50)
    (hbal : oracle a.network a.address = some 50)
    (hpend : a.status = "pending") (hlive : now < a.expires_at)
    (huid : u.id = a.user_id) :
    (monitor_deposits_tick oracle now
        { users := [u], transactions := [], deposit_addresses := [a],
          next_tx_id := ntx, next_addr_id := nad }).deposit_addresses =
      [{ a with status := "completed", completed_at := some now }] ∧
    (monitor_deposits_tick oracle now
        { users := [u], transactions := [], deposit_addresses := [a],
          next_tx_id := ntx, next_addr_id := nad }).transactions =
      [deposit_transaction ntx a] ∧
    (deposit_transaction ntx a).type = "deposit" ∧
    (deposit_transaction ntx a).status = "completed" ∧
    (deposit_transaction ntx a).amount = 50 ∧
    (deposit_transaction ntx a).deposit_address_id = some a.id ∧
    (monitor_deposits_tick oracle now
        { users := [u], transactions := [], deposit_addresses := [a],
          next_tx_id := ntx, next_addr_id := nad }).users =
      [{ u with balance := u.balance + 50 }] := by
  have hexp : expire_sweep_one now a = a := by
    unfold expire_sweep_one
    rw [if_neg]
    rintro ⟨g1, g2⟩
    exact absurd g2 (not_lt.mpr hlive.le)
  have hguard : settle_guard oracle a := by
    refine ⟨hnet, ?_⟩
    simp only [get_usdt_balance, hbal, hamt]
    exact le_refl 50
  have h1 : expire_deposit_addresses now
      { users := [u], transactions := [], deposit_addresses := [a],
        next_tx_id := ntx, next_addr_id := nad } =
      { users := [u], transactions := [], deposit_addresses := [a],
        next_tx_id := ntx, next_addr_id := nad } := by
    unfold expire_deposit_addresses
    simp [hexp]
  have h2 : pending_live now
      { users := [u], transactions := [], deposit_addresses := [a],
        next_tx_id := ntx, next_addr_id := nad } = [a] := by
    unfold pending_live
    simp [hpend, hlive]
  have h3 : monitor_deposits_tick oracle now
      { users := [u], transactions := [], deposit_addresses := [a],
        next_tx_id := ntx, next_addr_id := nad } =
      apply_settlement now
        { users := [u], transactions := [], deposit_addresses := [a],
          next_tx_id := ntx, next_addr_id := nad } a := by
    simp only [monitor_deposits_tick, h1, h2, List.foldl_cons, List.foldl_nil]
    unfold settle_one
    rw [if_pos hguard]
  rw [h3]
  unfold apply_settlement
  refine ⟨by simp, by simp, rfl, rfl, hamt, rfl, ?_⟩
  simp only [credit_user, convert_usdt_to_usd, List.map_cons, List.map_nil,
    if_pos huid, hamt]

/-- Witness for C3: the concrete store `stda7` (user 1, balance 3, address
`da7` expecting 50) with an Oracle reading 50 settles in one tick to a
completed address, one ledger row of amount 50, and balance 3 + 50. -/
theorem C3_round_trip_witness :
    (monitor_deposits_tick oracle50 10
        { users := [⟨1, 3⟩], transactions := [], deposit_addresses := [da7],
          next_tx_id := 5, next_addr_id := 8 }).deposit_addresses =
      [{ da7 with status := "completed", completed_at := some 10 }] ∧
    (monitor_deposits_tick oracle50 10
        { users := [⟨1, 3⟩], transactions := [], deposit_addresses := [da7],
          next_tx_id := 5, next_addr_id := 8 }).transactions =
      [deposit_transaction 5 da7] ∧
    (deposit_transaction 5 da7).type = "deposit" ∧
    (deposit_transaction 5 da7).status = "completed" ∧
    (deposit_transaction 5 da7).amount = 50 ∧
    (deposit_transaction 5 da7).deposit_address_id = some da7.id ∧
    (monitor_deposits_tick oracle50 10
        { users := [⟨1, 3⟩], transactions := [], deposit_addresses := [da7],
          next_tx_id := 5, next_addr_id := 8 }).users =
      [⟨1, (3 : Rat) + 50⟩] :=
  C3_round_trip oracle50 10 da7 ⟨1, 3⟩ 5 8 (Or.inl rfl) rfl rfl rfl
    (by decide) rfl

/-! ## Claim C4: expiration wins over late sufficient balance -/

/-- The effect of one settlement attempt for polled record `a` on an
arbitrary stored record `x`. -/
def addr_update1 (oracle : String → String → Option Rat) (now : Int)
    (a x : Web3DepositAddress) : Web3DepositAddress :=
  if settle_guard oracle a ∧ x.id = a.id then
    { x with status := "completed", completed_at := some now }
  else x

theorem settle_one_addresses (oracle : String → String → Option Rat) (now : Int)
    (st : LedgerState) (a : Web3DepositAddress) :
    (settle_one oracle now st a).deposit_addresses =
      st.deposit_addresses.map (addr_update1 oracle now a) := by
  unfold settle_one
  by_cases hg : settle_guard oracle a
  · rw [if_pos hg]
    unfold apply_settlement
    apply List.map_congr_left
    intro x _
    unfold addr_update1
    by_cases hx : x.id = a.id
    · rw [if_pos hx, if_pos ⟨hg, hx⟩]
    · rw [if_neg hx, if_neg (by tauto)]
  · rw [if_neg hg]
    have h : ∀ x ∈ st.deposit_addresses, addr_update1 oracle now a x = x := by
      intro x _
      unfold addr_update1
      rw [if_neg (by tauto)]
    rw [List.map_congr_left h]
    exact (List.map_id' _).symm

theorem foldl_settle_addresses (oracle : String → String → Option Rat) (now : Int) :
    ∀ (l : List Web3DepositAddress) (st : LedgerState),
      (l.foldl (settle_one oracle now) st).deposit_addresses =
        st.deposit_addresses.map (fun x =>
          l.foldl (fun y b => addr_update1 oracle now b y) x) := by
  intro l
  induction l with
  | nil => intro st; simp
  | cons b l ih =>
    intro st
    simp only [List.foldl_cons]
    rw [ih (settle_one oracle now st b), settle_one_addresses, List.map_map]
    rfl

theorem addr_update1_id (oracle : String → String → Option Rat) (now : Int)
    (a x : Web3DepositAddress) : (addr_update1 oracle now a x).id = x.id := by
  unfold addr_update1
  split <;> rfl

theorem addr_fold_id (oracle : String → String → Option Rat) (now : Int)
    (l : List Web3DepositAddress) (x : Web3DepositAddress) :
    (l.foldl (fun y b => addr_update1 oracle now b y) x).id = x.id := by
  induction l generalizing x with
  | nil => rfl
  | cons b l ih =>
    simp only [List.foldl_cons]
    rw [ih]
    exact addr_update1_id oracle now b x

theorem addr_fold_of_ne (oracle : String → String → Option Rat) (now : Int)
    (l : List Web3DepositAddress) (x : Web3DepositAddress)
    (h : ∀ b ∈ l, b.id ≠ x.id) :
    l.foldl (fun y b => addr_update1 oracle now b y) x = x := by
  induction l with
  | nil => rfl
  | cons b l ih =>
    simp only [List.foldl_cons]
    have h1 : addr_update1 oracle now b x = x := by
      unfold addr_update1
      rw [if_neg]
      rintro ⟨_, h2⟩
      exact h b (List.Mem.head _) h2.symm
    rw [h1]
    exact ih (fun c hc => h c (List.Mem.tail _ hc))

theorem expire_sweep_one_id (now : Int) (a : Web3DepositAddress) :
    (expire_sweep_one now a).id = a.id := by
  unfold expire_sweep_one
  split <;> rfl

theorem expire_sweep_one_expires (now : Int) (a : Web3DepositAddress) :
    (expire_sweep_one now a).expires_at = a.expires_at := by
  unfold expire_sweep_one
  split <;> rfl

/-- Ids of the stored addresses are unchanged by the expiry sweep. -/
theorem expire_ids (now : Int) (st : LedgerState) :
    (expire_deposit_addresses now st).deposit_addresses.map (fun x => x.id) =
      st.deposit_addresses.map (fun x => x.id) := by
  unfold expire_deposit_addresses
  rw [List.map_map]
  apply List.map_congr_left
  intro x _
  exact expire_sweep_one_id now x

/-- C4: a deposit address already past its deadline at the start of a tick is
never completed by the engine: after the tick the unique record carrying its
id is exactly its swept image — which is `"expired"` if the record was
pending, keeps its previous (non-completed) status otherwise, and is in no
case `"completed"` — no matter what balance the Oracle reports. -/
theorem C4_expiration_wins (oracle : String → String → Option Rat) (now : Int)
    (st : LedgerState) (a : Web3DepositAddress)
    (hnodup : (st.deposit_addresses.map (fun x => x.id)).Nodup)
    (hmem : a ∈ st.deposit_addresses)
    (hexp : a.expires_at < now) :
    expire_sweep_one now a ∈ (monitor_deposits_tick oracle now st).deposit_addresses ∧
    (∀ r ∈ (monitor_deposits_tick oracle now st).deposit_addresses,
        r.id = a.id → r = expire_sweep_one now a) ∧
    (a.status ≠ "completed" → (expire_sweep_one now a).status ≠ "completed") ∧
    (a.status = "pending" → (expire_sweep_one now a).status = "expired") := by
  have ha1mem : expire_sweep_one now a ∈
      (expire_deposit_addresses now st).deposit_addresses :=
    List.mem_map_of_mem (expire_sweep_one now) hmem
  have hnodup1 : ((expire_deposit_addresses now st).deposit_addresses.map
      (fun x => x.id)).Nodup := by
    rw [expire_ids]
    exact hnodup
  have hinj := List.inj_on_of_nodup_map hnodup1
  have hne : ∀ b ∈ pending_live now (expire_deposit_addresses now st),
      b.id ≠ (expire_sweep_one now a).id := by
    intro b hb hbeq
    have hb2 : b ∈ (expire_deposit_addresses now st).deposit_addresses ∧
        (b.status = "pending" ∧ now < b.expires_at) := by
      have := List.mem_filter.mp hb
      simpa using this
    have hba : b = expire_sweep_one now a := hinj hb2.1 ha1mem hbeq
    have : now < a.expires_at := by
      have h5 := hb2.2.2
      rw [hba, expire_sweep_one_expires] at h5
      exact h5
    exact absurd hexp (not_lt.mpr this.le)
  have htick : (monitor_deposits_tick oracle now st).deposit_addresses =
      (expire_deposit_addresses now st).deposit_addresses.map (fun x =>
        (pending_live now (expire_deposit_addresses now st)).foldl
          (fun y b => addr_update1 oracle now b y) x) := by
    simp only [monitor_deposits_tick]
    exact foldl_settle_addresses oracle now _ _
  have hfix : (pending_live now (expire_deposit_addresses now st)).foldl
      (fun y b => addr_update1 oracle now b y) (expire_sweep_one now a) =
      expire_sweep_one now a :=
    addr_fold_of_ne oracle now _ _ hne
  refine ⟨?_, ?_, ?_, ?_⟩
  · rw [htick]
    exact List.mem_map.mpr ⟨expire_sweep_one now a, ha1mem, hfix⟩
  · intro r hr hrid
    rw [htick] at hr
    obtain ⟨x, hx, hxr⟩ := List.mem_map.mp hr
    have hxid : x.id = (expire_sweep_one now a).id := by
      rw [expire_sweep_one_id]
      rw [← hrid, ← hxr]
      exact (addr_fold_id oracle now _ x).symm
    have hxa : x = expire_sweep_one now a := hinj hx ha1mem hxid
    rw [← hxr, hxa, hfix]
  · intro h
    unfold expire_sweep_one
    split
    · simp
    · exact h
  · intro h1
    unfold expire_sweep_one
    rw [if_pos ⟨h1, hexp⟩]

/-- Fixture: a pending deposit address already expired at time 10
(deadline 5), expecting 100. -/
def aExp : Web3DepositAddress :=
  { id := 3, user_id := 1, address := "Told", network := "TRC20", amount := 100,
    status := "pending", expires_at := 5, created_at := 0, completed_at := none }

/-- Fixture: store holding the expired `aExp` and the live `da7`. -/
def stc4 : LedgerState :=
  { users := [⟨1, 0⟩], transactions := [], deposit_addresses := [aExp, da7],
    next_tx_id := 0, next_addr_id := 9 }

/-- Witness for C4 at the spec's own test: `aExp` (amount 100, deadline
already past) with an Oracle reporting 150 is still swept to `"expired"`,
never `"completed"`, by the tick at time 10. -/
theorem C4_expiration_wins_witness :
    expire_sweep_one 10 aExp ∈
      (monitor_deposits_tick (fun _ _ => some 150) 10 stc4).deposit_addresses ∧
    (expire_sweep_one 10 aExp).status = "expired" :=
  ⟨(C4_expiration_wins (fun _ _ => some 150) 10 stc4 aExp (by decide)
      (List.Mem.head _) (by decide)).1,
   (C4_expiration_wins (fun _ _ => some 150) 10 stc4 aExp (by decide)
      (List.Mem.head _) (by decide)).2.2.2 rfl⟩

/-! ## Claim C5: at most one referencing transaction, statuses in lockstep -/

/-- Number of ledger rows referencing the deposit address with id `aid`. -/
def RefCount (st : LedgerState) (aid : Nat) : Nat :=
  st.transactions.countP (fun t => t.deposit_address_id == some aid)

/-- The inductive invariant of the subsystem: primary keys are unique and
below the allocation counters, every address-referencing ledger row is a
completed deposit whose address exists and is completed, and every address is
referenced by at most one row. -/
structure Inv (st : LedgerState) : Prop where
  addr_ids_nodup : (st.deposit_addresses.map (fun a => a.id)).Nodup
  tx_ids_nodup : (st.transactions.map (fun t => t.id)).Nodup
  addr_id_lt : ∀ a ∈ st.deposit_addresses, a.id < st.next_addr_id
  tx_id_lt : ∀ t ∈ st.transactions, t.id < st.next_tx_id
  ref_completed : ∀ t ∈ st.transactions, ∀ aid, t.deposit_address_id = some aid →
    t.status = "completed" ∧ t.type = "deposit" ∧
    ∃ a ∈ st.deposit_addresses, a.id = aid ∧ a.status = "completed"
  ref_unique : ∀ aid, RefCount st aid ≤ 1

theorem Inv_initial (users : List User) : Inv (initial users) := by
  constructor <;> simp [initial, RefCount]

/-- The invariant does not mention user balances. -/
theorem Inv_set_users (st : LedgerState) (u : List User) (h : Inv st) :
    Inv { st with users := u } := by
  constructor
  · exact h.addr_ids_nodup
  · exact h.tx_ids_nodup
  · exact h.addr_id_lt
  · exact h.tx_id_lt
  · exact h.ref_completed
  · exact h.ref_unique

theorem Inv_expire (now : Int) (st : LedgerState) (h : Inv st) :
    Inv (expire_deposit_addresses now st) := by
  constructor
  · rw [expire_ids]
    exact h.addr_ids_nodup
  · exact h.tx_ids_nodup
  · intro a ha
    obtain ⟨x, hx, hxa⟩ := List.mem_map.mp ha
    have hlt := h.addr_id_lt x hx
    rw [← hxa, expire_sweep_one_id]
    exact hlt
  · exact h.tx_id_lt
  · intro t ht aid href
    obtain ⟨h1, h2, x, hx, hxid, hxst⟩ := h.ref_completed t ht aid href
    refine ⟨h1, h2, expire_sweep_one now x, List.mem_map_of_mem _ hx, ?_, ?_⟩
    · rw [expire_sweep_one_id]
      exact hxid
    · unfold expire_sweep_one
      rw [if_neg]
      · exact hxst
      · rintro ⟨hp, _⟩
        rw [hxst] at hp
        exact absurd hp (by decide)
  · exact h.ref_unique

/-- Appending a fresh row that references no deposit address preserves the
invariant. -/
theorem Inv_append_tx (st : LedgerState) (t : Transaction)
    (hid : t.id = st.next_tx_id) (href : t.deposit_address_id = none)
    (h : Inv st) :
    Inv { st with transactions := st.transactions ++ [t]
                  next_tx_id := st.next_tx_id + 1 } := by
  constructor
  · exact h.addr_ids_nodup
  · rw [List.map_append]
    refine List.Nodup.append h.tx_ids_nodup (List.nodup_singleton _) ?_
    intro x hx hmem
    obtain ⟨u, hu, hux⟩ := List.mem_map.mp hx
    have hlt := h.tx_id_lt u hu
    simp only [List.map_cons, List.map_nil, List.mem_singleton] at hmem
    rw [hmem, hid] at hux
    rw [hux] at hlt
    exact lt_irrefl _ hlt
  · exact h.addr_id_lt
  · intro u hu
    rcases List.mem_append.mp hu with h1 | h1
    · exact lt_trans (h.tx_id_lt u h1) (Nat.lt_succ_self _)
    · rw [List.mem_singleton.mp h1, hid]
      exact Nat.lt_succ_self _
  · intro u hu aid huref
    rcases List.mem_append.mp hu with h1 | h1
    · exact h.ref_completed u h1 aid huref
    · rw [List.mem_singleton.mp h1, href] at huref
      exact Option.noConfusion huref
  · intro aid
    have : RefCount { st with transactions := st.transactions ++ [t]
                              next_tx_id := st.next_tx_id + 1 } aid =
        RefCount st aid := by
      unfold RefCount
      rw [List.countP_append, List.countP_cons, List.countP_nil]
      simp [href]
    rw [this]
    exact h.ref_unique aid

/-- Updating (in place) a row that references no deposit address — with a
row transformer preserving id, reference and type — preserves the invariant. -/
theorem Inv_update_tx (st : LedgerState) (txid : Nat) (f : Transaction → Transaction)
    (hfid : ∀ t, (f t).id = t.id)
    (hfref : ∀ t, (f t).deposit_address_id = t.deposit_address_id)
    (hunref : ∀ t ∈ st.transactions, t.id = txid → t.deposit_address_id = none)
    (h : Inv st) : Inv (update_tx st txid f) := by
  have hgid : ∀ t, (if t.id = txid then f t else t).id = t.id := by
    intro t
    split
    · exact hfid t
    · rfl
  have hgref : ∀ t, (if t.id = txid then f t else t).deposit_address_id =
      t.deposit_address_id := by
    intro t
    split
    · exact hfref t
    · rfl
  constructor
  · exact h.addr_ids_nodup
  · unfold update_tx
    rw [List.map_map]
    have he : ∀ t ∈ st.transactions,
        ((fun t => t.id) ∘ fun t => if t.id = txid then f t else t) t =
          (fun t => t.id) t := by
      intro t _
      exact hgid t
    rw [List.map_congr_left he]
    exact h.tx_ids_nodup
  · exact h.addr_id_lt
  · intro u hu
    obtain ⟨x, hx, hxu⟩ := List.mem_map.mp hu
    have hlt := h.tx_id_lt x hx
    rw [← hxu, hgid]
    exact hlt
  · intro u hu aid huref
    obtain ⟨x, hx, hxu⟩ := List.mem_map.mp hu
    have hxref : x.deposit_address_id = some aid := by
      rw [← hgref x, hxu]
      exact huref
    have hxid : x.id ≠ txid := by
      intro hcon
      rw [hunref x hx hcon] at hxref
      exact Option.noConfusion hxref
    have hxu2 : u = x := by
      rw [← hxu, if_neg hxid]
    rw [hxu2]
    exact h.ref_completed x hx aid hxref
  · intro aid
    have : RefCount (update_tx st txid f) aid = RefCount st aid := by
      unfold RefCount update_tx
      rw [List.countP_map]
      refine List.countP_congr ?_
      intro t _
      simp only [Function.comp]
      rw [hgref t]
    rw [this]
    exact h.ref_unique aid

/-- The settlement's three atomic effects preserve the invariant, provided
the settled id belongs to a currently pending stored record. -/
theorem Inv_apply_settlement (now : Int) (st : LedgerState) (a : Web3DepositAddress)
    (hex : ∃ r ∈ st.deposit_addresses, r.id = a.id ∧ r.status = "pending")
    (h : Inv st) : Inv (apply_settlement now st a) := by
  obtain ⟨r, hr, hrid, hrpend⟩ := hex
  have hcg : ∀ x, ((if x.id = a.id then
      { x with status := "completed", completed_at := some now } else x) :
        Web3DepositAddress).id = x.id := by
    intro x
    split <;> rfl
  constructor
  · unfold apply_settlement
    rw [List.map_map]
    have he : ∀ x ∈ st.deposit_addresses,
        ((fun x => x.id) ∘ fun x => if x.id = a.id then
          { x with status := "completed", completed_at := some now } else x) x =
          (fun x => x.id) x := by
      intro x _
      exact hcg x
    rw [List.map_congr_left he]
    exact h.addr_ids_nodup
  · unfold apply_settlement
    rw [List.map_append]
    refine List.Nodup.append h.tx_ids_nodup (List.nodup_singleton _) ?_
    intro x hx hmem
    obtain ⟨u, hu, hux⟩ := List.mem_map.mp hx
    have hlt := h.tx_id_lt u hu
    simp only [List.map_cons, List.map_nil, List.mem_singleton] at hmem
    rw [hmem] at hux
    rw [show (deposit_transaction st.next_tx_id a).id = st.next_tx_id from rfl] at hux
    rw [hux] at hlt
    exact lt_irrefl _ hlt
  · intro x hx
    obtain ⟨u, hu, hux⟩ := List.mem_map.mp hx
    have hlt := h.addr_id_lt u hu
    rw [← hux, hcg]
    exact hlt
  · intro u hu
    rcases List.mem_append.mp hu with h1 | h1
    · exact lt_trans (h.tx_id_lt u h1) (Nat.lt_succ_self _)
    · rw [List.mem_singleton.mp h1]
      exact Nat.lt_succ_self _
  · intro u hu aid huref
    rcases List.mem_append.mp hu with h1 | h1
    · obtain ⟨h2, h3, x, hx, hxid, hxst⟩ := h.ref_completed u h1 aid huref
      refine ⟨h2, h3, ?_⟩
      refine ⟨if x.id = a.id then
          { x with status := "completed", completed_at := some now } else x,
        List.mem_map_of_mem _ hx, ?_, ?_⟩
      · rw [hcg]
        exact hxid
      · split <;> [rfl; exact hxst]
    · rw [List.mem_singleton.mp h1] at huref ⊢
      have haid : aid = a.id := by
        have := huref
        simp only [deposit_transaction] at this
        exact (Option.some.inj this).symm
      refine ⟨rfl, rfl, ?_⟩
      refine ⟨{ r with status := "completed", completed_at := some now }, ?_, ?_, rfl⟩
      · have : (if r.id = a.id then
            { r with status := "completed", completed_at := some now } else r) =
            { r with status := "completed", completed_at := some now } := by
          rw [if_pos hrid]
        rw [← this]
        exact List.mem_map_of_mem _ hr
      · rw [show ({ r with status := "completed", completed_at := some now } :
          Web3DepositAddress).id = r.id from rfl, hrid, haid]
  · intro aid
    by_cases haid : aid = a.id
    · have hzero : st.transactions.countP
          (fun t => t.deposit_address_id == some aid) = 0 := by
        rw [List.countP_eq_zero]
        intro t ht hcon
        simp only [beq_iff_eq] at hcon
        obtain ⟨_, _, x, hx, hxid, hxst⟩ := h.ref_completed t ht aid hcon
        have hinj := List.inj_on_of_nodup_map h.addr_ids_nodup
        have : x = r := hinj hx hr (by rw [hxid, hrid]; exact haid)
        rw [this, hrpend] at hxst
        exact absurd hxst (by decide)
      unfold RefCount apply_settlement
      simp only [List.countP_append, List.countP_cons, List.countP_nil]
      rw [hzero]
      split <;> decide
    · have heq : RefCount (apply_settlement now st a) aid =
          RefCount st aid := by
        unfold RefCount apply_settlement
        rw [List.countP_append, List.countP_cons, List.countP_nil]
        have hfalse : ((deposit_transaction st.next_tx_id a).deposit_address_id ==
            some aid) = false := by
          refine beq_eq_false_iff_ne.mpr ?_
          simp only [deposit_transaction, ne_eq, Option.some.injEq]
          exact fun hcon => haid hcon.symm
        rw [hfalse]
        simp
      rw [heq]
      exact h.ref_unique aid

theorem Inv_foldl_settle (oracle : String → String → Option Rat) (now : Int) :
    ∀ (l : List Web3DepositAddress) (st : LedgerState), Inv st →
      (∀ b ∈ l, ∃ r ∈ st.deposit_addresses, r.id = b.id ∧ r.status = "pending") →
      (l.map (fun b => b.id)).Nodup →
      Inv (l.foldl (settle_one oracle now) st) := by
  intro l
  induction l with
  | nil =>
    intro st h _ _
    exact h
  | cons b l ih =>
    intro st h hpend hnd
    simp only [List.foldl_cons]
    have hnd2 : (∀ x ∈ l, ¬ x.id = b.id) ∧ (l.map (fun x => x.id)).Nodup := by
      simpa using hnd
    have hbid : ∀ c ∈ l, c.id ≠ b.id := fun c hc => hnd2.1 c hc
    have h1 : Inv (settle_one oracle now st b) := by
      unfold settle_one
      by_cases hg : settle_guard oracle b
      · rw [if_pos hg]
        exact Inv_apply_settlement now st b (hpend b (List.Mem.head _)) h
      · rw [if_neg hg]
        exact h
    have h2 : ∀ c ∈ l, ∃ r ∈ (settle_one oracle now st b).deposit_addresses,
        r.id = c.id ∧ r.status = "pending" := by
      intro c hc
      obtain ⟨r, hr, hrid, hrpend⟩ := hpend c (List.Mem.tail _ hc)
      refine ⟨r, ?_, hrid, hrpend⟩
      rw [settle_one_addresses]
      have : addr_update1 oracle now b r = r := by
        unfold addr_update1
        rw [if_neg]
        rintro ⟨_, hcon⟩
        exact hbid c hc (hrid ▸ hcon)
      rw [← this]
      exact List.mem_map_of_mem _ hr
    exact ih (settle_one oracle now st b) h1 h2 hnd2.2

/-- One engine tick preserves the invariant. -/
theorem Inv_tick (oracle : String → String → Option Rat) (now : Int)
    (st : LedgerState) (h : Inv st) :
    Inv (monitor_deposits_tick oracle now st) := by
  simp only [monitor_deposits_tick]
  have h1 := Inv_expire now st h
  refine Inv_foldl_settle oracle now _ _ h1 ?_ ?_
  · intro b hb
    have hb2 := List.mem_filter.mp hb
    have hb3 : b.status = "pending" ∧ now < b.expires_at := by
      simpa using hb2.2
    exact ⟨b, hb2.1, rfl, hb3.1⟩
  · have hsub : List.Sublist (pending_live now (expire_deposit_addresses now st))
        (expire_deposit_addresses now st).deposit_addresses :=
      List.filter_sublist _
    exact List.Nodup.sublist (List.Sublist.map (fun x => x.id) hsub)
      h1.addr_ids_nodup

theorem Inv_create_deposit (network : String) (amount : Rat) (uid : Nat)
    (addr : String) (now : Int) (st : LedgerState) (h : Inv st) :
    Inv (create_web3_deposit_state network amount uid addr now st) := by
  by_cases hval : network = "TRC20" ∨ network = "BEP20"
  · by_cases hmin : amount <
        ((get_network_info network).map (fun ni => ni.min_deposit)).getD 10
    · unfold create_web3_deposit_state create_web3_deposit
      rw [if_pos hval, if_pos hmin]
      exact h
    · by_cases hmax : ((get_network_info network).map
          (fun ni => ni.max_deposit)).getD 100000 < amount
      · unfold create_web3_deposit_state create_web3_deposit
        rw [if_pos hval, if_neg hmin, if_pos hmax]
        exact h
      · have hc : create_web3_deposit_state network amount uid addr now st =
            { st with
                deposit_addresses := st.deposit_addresses ++
                  [{ id := st.next_addr_id, user_id := uid, address := addr,
                     network := strUpper network, amount := amount,
                     status := "pending", expires_at := now + 86400,
                     created_at := now, completed_at := none }]
                next_addr_id := st.next_addr_id + 1 } := by
          unfold create_web3_deposit_state create_web3_deposit
          rw [if_pos hval, if_neg hmin, if_neg hmax]
        rw [hc]
        constructor
        · rw [List.map_append]
          refine List.Nodup.append h.addr_ids_nodup (List.nodup_singleton _) ?_
          intro x hx hmem
          obtain ⟨u, hu, hux⟩ := List.mem_map.mp hx
          have hlt := h.addr_id_lt u hu
          simp only [List.map_cons, List.map_nil, List.mem_singleton] at hmem
          rw [hmem] at hux
          rw [hux] at hlt
          exact lt_irrefl _ hlt
        · exact h.tx_ids_nodup
        · intro a ha
          rcases List.mem_append.mp ha with h1 | h1
          · exact lt_trans (h.addr_id_lt a h1) (Nat.lt_succ_self _)
          · rw [List.mem_singleton.mp h1]
            exact Nat.lt_succ_self _
        · exact h.tx_id_lt
        · intro t ht aid href
          obtain ⟨h1, h2, x, hx, hxid, hxst⟩ := h.ref_completed t ht aid href
          exact ⟨h1, h2, x, List.mem_append_left _ hx, hxid, hxst⟩
        · exact h.ref_unique
  · unfold create_web3_deposit_state create_web3_deposit
    rw [if_neg hval]
    exact h

theorem Inv_withdrawal_create (oracle : String → String → Option Rat)
    (network : String) (amount : Rat) (wallet : String) (uid : Nat)
    (st : LedgerState) (h : Inv st) :
    Inv (create_web3_withdrawal_state oracle network amount wallet uid st) := by
  by_cases hval : network = "TRC20" ∨ network = "BEP20"
  · rcases he : check_withdrawal_eligibility oracle network amount
        (user_balance_of st uid) with e | pb
    · unfold create_web3_withdrawal_state create_web3_withdrawal
      rw [if_pos hval, he]
      exact h
    · have hc : create_web3_withdrawal_state oracle network amount wallet uid st =
          { st with
              transactions := st.transactions ++
                [withdrawal_transaction st.next_tx_id uid network amount
                  (((get_network_info network).map
                    (fun ni => ni.withdrawal_fee)).getD 1) wallet]
              next_tx_id := st.next_tx_id + 1 } := by
        unfold create_web3_withdrawal_state create_web3_withdrawal
        rw [if_pos hval, he]
      rw [hc]
      exact Inv_append_tx st _ rfl rfl h
  · unfold create_web3_withdrawal_state create_web3_withdrawal
    rw [if_neg hval]
    exact h

theorem Inv_withdrawal_process (oracle : String → String → Option Rat)
    (send : SendCall → SendResult) (wid uid : Nat) (st : LedgerState)
    (h : Inv st) :
    Inv (process_web3_withdrawal_state oracle send wid uid st) := by
  unfold process_web3_withdrawal_state
  rcases hfind : st.transactions.find? (fun t =>
      t.id == wid && t.user_id == uid &&
      t.type == "withdrawal" && t.status == "pending") with _ | w
  · simp only [process_web3_withdrawal, hfind]
    exact h
  · have hw := List.mem_of_find?_eq_some hfind
    have hp := List.find?_some hfind
    simp only [Bool.and_eq_true, beq_iff_eq] at hp
    have hwty : w.type = "withdrawal" := hp.1.2
    have hinj := List.inj_on_of_nodup_map h.tx_ids_nodup
    have hunref : ∀ t ∈ st.transactions, t.id = w.id →
        t.deposit_address_id = none := by
      intro t ht htid
      have htw : t = w := hinj ht hw htid
      rcases hdep : t.deposit_address_id with _ | aid
      · rfl
      · exfalso
        have hd := (h.ref_completed t ht aid hdep).2.1
        rw [htw, hwty] at hd
        exact absurd hd (by decide)
    rcases he : check_withdrawal_eligibility oracle (w.provider.getD "") w.amount
        (user_balance_of st uid) with e | pb
    · simp only [process_web3_withdrawal, hfind, he]
      exact Inv_update_tx st w.id _ (fun t => rfl) (fun t => rfl) hunref h
    · by_cases hprov : w.provider = some "TRC20" ∨ w.provider = some "BEP20"
      · rcases hsend : send ⟨w.provider.getD "", w.wallet_address.getD "", w.amount⟩
            with hh | err
        · simp only [process_web3_withdrawal, hfind, he, if_pos hprov, hsend]
          exact Inv_set_users _ _
            (Inv_update_tx st w.id _ (fun t => rfl) (fun t => rfl) hunref h)
        · simp only [process_web3_withdrawal, hfind, he, if_pos hprov, hsend]
          exact Inv_update_tx st w.id _ (fun t => rfl) (fun t => rfl) hunref h
      · simp only [process_web3_withdrawal, hfind, he, if_neg hprov]
        exact Inv_update_tx st w.id _ (fun t => rfl) (fun t => rfl) hunref h

theorem Inv_deposit_verify (network : String) (vamount : Rat)
    (tron_info : Option TronTxInfo) (bsc_info : Option BscTxInfo)
    (tx_hash : String) (uid : Nat) (st : LedgerState) (h : Inv st) :
    Inv (verify_web3_deposit_state network vamount tron_info bsc_info tx_hash uid st) := by
  unfold verify_web3_deposit_state
  rcases hfind : st.transactions.find? (fun t =>
      t.user_id == uid && t.type == "deposit" && t.status == "pending" &&
      t.provider == some network && t.amount == vamount) with _ | dep
  · simp only [verify_web3_deposit, hfind]
    exact h
  · have hdm := List.mem_of_find?_eq_some hfind
    have hp := List.find?_some hfind
    simp only [Bool.and_eq_true, beq_iff_eq] at hp
    have hdpend : dep.status = "pending" := hp.1.1.2
    have hinj := List.inj_on_of_nodup_map h.tx_ids_nodup
    have hunref : ∀ t ∈ st.transactions, t.id = dep.id →
        t.deposit_address_id = none := by
      intro t ht htid
      have htd : t = dep := hinj ht hdm htid
      rcases hdep : t.deposit_address_id with _ | aid
      · rfl
      · exfalso
        have hd := (h.ref_completed t ht aid hdep).1
        rw [htd, hdpend] at hd
        exact absurd hd (by decide)
    by_cases hval : network = "TRC20" ∨ network = "BEP20"
    · rcases hv : (if network = "TRC20" then verify_transaction_trc20 tron_info vamount
          else verify_transaction_bep20 bsc_info vamount) with e | obs
      · simp only [verify_web3_deposit, hfind, if_pos hval, hv]
        exact h
      · simp only [verify_web3_deposit, hfind, if_pos hval, hv]
        exact Inv_set_users _ _
          (Inv_update_tx st dep.id _ (fun t => rfl) (fun t => rfl) hunref h)
    · simp only [verify_web3_deposit, hfind, if_neg hval]
      exact h

/-- Every operation of the subsystem preserves the invariant. -/
theorem Inv_step {s t : LedgerState} (h : Inv s) (hst : Step s t) : Inv t := by
  cases hst with
  | deposit_create network amount uid addr now =>
    exact Inv_create_deposit network amount uid addr now _ h
  | sweep now => exact Inv_expire now _ h
  | tick oracle now => exact Inv_tick oracle now _ h
  | withdrawal_create oracle network amount wallet uid =>
    exact Inv_withdrawal_create oracle network amount wallet uid _ h
  | withdrawal_process oracle send wid uid =>
    exact Inv_withdrawal_process oracle send wid uid _ h
  | deposit_verify network vamount tron_info bsc_info tx_hash uid =>
    exact Inv_deposit_verify network vamount tron_info bsc_info tx_hash uid _ h

theorem Inv_reachable {st : LedgerState} (h : Reachable st) : Inv st := by
  induction h with
  | init users => exact Inv_initial users
  | step hr hs ih => exact Inv_step ih hs

/-- C5: in every state reachable through the subsystem's operations, each
deposit address is referenced by at most one ledger row, and every row that
references an address has status `"completed"` if and only if the address
has status `"completed"` (both always hold simultaneously by construction of
the settlement). -/
theorem C5_unique_completed_refs (st : LedgerState) (h : Reachable st) :
    (∀ aid, RefCount st aid ≤ 1) ∧
    (∀ t ∈ st.transactions, ∀ a ∈ st.deposit_addresses,
        t.deposit_address_id = some a.id →
        (t.status = "completed" ↔ a.status = "completed")) := by
  have hi := Inv_reachable h
  refine ⟨hi.ref_unique, ?_⟩
  intro t ht a ha href
  obtain ⟨hst, hty, x, hx, hxid, hxc⟩ := hi.ref_completed t ht a.id href
  have hxa : x = a := List.inj_on_of_nodup_map hi.addr_ids_nodup hx ha hxid
  constructor
  · intro _
    rw [← hxa]
    exact hxc
  · intro _
    exact hst

/-- Witness for C5 on a concrete reachable state: start from a store with a
single user, create a TRC20 deposit address for 50, run one engine tick with
the Oracle reporting 50 (the address settles and one referencing row is
created); address id 0 is then referenced by at most one row. -/
theorem C5_unique_completed_refs_witness :
    RefCount (monitor_deposits_tick oracle50 10
      (create_web3_deposit_state "TRC20" 50 1 "Taddr" 0 (initial [⟨1, 3⟩]))) 0 ≤ 1 :=
  (C5_unique_completed_refs _
    (Reachable.step
      (Reachable.step (Reachable.init [⟨1, 3⟩])
        (Step.deposit_create "TRC20" 50 1 "Taddr" 0 (initial [⟨1, 3⟩])))
      (Step.tick oracle50 10
        (create_web3_deposit_state "TRC20" 50 1 "Taddr" 0 (initial [⟨1, 3⟩]))))).1 0

end BlackGem
